import Mathlib

/-!
# TinyFS: a verification development of the GhostForge sandboxed filesystem layer

This file gives a shallow embedding of `ghostforge/tinyfs` (`client.py`,
`models.py`, `exceptions.py`, `cli.py`) and proves properties of it.

Modelling conventions:
* Canonical filesystem paths are lists of path segments (`Segs`); `Path.resolve()`
  is modelled lexically (the workspace has no symlinks in the model).
* The OS filesystem is a finite map from canonical paths to text contents plus a
  set of directories (`FS`).  `open`, `os.remove`, `os.rename`,
  `mkdir(parents=True, exist_ok=True)`, `shutil.move` and `shutil.copy2` are
  modelled with their documented POSIX/CPython semantics.
* Python exceptions become an inductive type `PyExc`; the class hierarchy of
  `exceptions.py` and of the relevant builtins is captured by boolean
  classifiers.  Fallible operations return `Except PyExc`.
* Wall-clock fields (`ActionRecord.timestamp`, `FileInfo.modified_time`) are
  outside the model and omitted; no property below depends on them.
* The value produced by `TinyFSClient._request_confirmation` when
  `auto_confirm` is off is abstracted as a `Gate` function parameter; the
  client as shipped corresponds to `shippedGate` (the hard-coded `return True`
  at client.py:132).
-/

namespace TinyFS

/-- A canonical absolute path, as its list of path segments
(`/a/ws` is `["a", "ws"]`, the root `/` is `[]`). -/
abbrev Segs := List String

/-- Split a raw path string at `/` characters (auxiliary, structural on the
character list). -/
def splitCompsAux : List Char → List Char → List String
  | [], acc => [String.mk acc.reverse]
  | c :: rest, acc =>
    if c = '/' then String.mk acc.reverse :: splitCompsAux rest []
    else splitCompsAux rest (c :: acc)

/-- The `/`-separated components of a raw path string. -/
def splitComps (s : String) : List String :=
  splitCompsAux s.toList []

/-- Lexical path resolution: starting from the canonical path `start`, apply
each raw component; empty components and `.` are dropped, `..` removes the last
segment (and is a no-op at the root, as in POSIX).  This models
`pathlib.Path.resolve()` on a symlink-free tree. -/
def resolveSegs (start : Segs) (comps : List String) : Segs :=
  comps.foldl
    (fun acc c =>
      if c = "" ∨ c = "." then acc
      else if c = ".." then acc.dropLast
      else acc ++ [c])
    start

/-- Whether a raw path string is absolute (`os.path.isabs` on POSIX). -/
def isAbsPath (s : String) : Bool :=
  match s.toList with
  | [] => false
  | c :: _ => c = '/'

/-- Resolution of a candidate path string against the workspace root, as in
`_validate_path` (client.py:91-99): a relative string is joined to the
workspace and resolved, an absolute string is resolved on its own. -/
def resolveCandidate (ws : Segs) (path : String) : Segs :=
  if isAbsPath path then resolveSegs [] (splitComps path)
  else resolveSegs ws (splitComps path)

/-- Serialisation of a canonical path back to a string, as `str(Path(...))`
prints it: `/` for the root, `/a/ws` otherwise. -/
def pathStr (p : Segs) : String :=
  "/" ++ String.intercalate "/" p

/-- Whether the first character list is an initial run of the second. -/
def listIsInit : List Char → List Char → Bool
  | [], _ => true
  | _ :: _, [] => false
  | a :: as, b :: bs => a = b && listIsInit as bs

/-- Python's `str.startswith`: `s.startswith(pre)`. -/
def strStartsWith (s pre : String) : Bool :=
  listIsInit pre.toList s.toList

/-- Segment-wise containment: the canonical path `p` is `ws` itself or a
descendant of it.  This is the containment notion of the specification
(it compares path segments, not raw strings). -/
def segsUnder : Segs → Segs → Bool
  | [], _ => true
  | _ :: _, [] => false
  | a :: as, b :: bs => a = b && segsUnder as bs

/-- Serialisation of a workspace-relative path, as `str(p.relative_to(ws))`
prints it: `.` when the two coincide. -/
def relPathStr (rel : Segs) : String :=
  match rel with
  | [] => "."
  | _ => String.intercalate "/" rel

/-- The Python exceptions that can surface from the TinyFS code: the TinyFS
hierarchy of `exceptions.py` plus the relevant builtin/stdlib exceptions.
`shutilError` is `shutil.Error`, `sameFileError` is `shutil.SameFileError`
(both subclasses of `OSError`); `osError` stands for any other `OSError`. -/
inductive PyExc where
  | fileNotFound
  | isADirectory
  | notADirectory
  | fileExistsErr
  | valueError
  | shutilError
  | sameFileError
  | osError
  | tinyFSBase
  | securityBase
  | pathValidation
  | operationNotAllowed
  | sandboxErr
  | commandExecutionErr
  | operationCancelled
  deriving Repr, DecidableEq

/-- Membership in the `SecurityError` class of exceptions.py (line 9):
`PathValidationError` and `OperationNotAllowedError` are its subclasses. -/
def PyExc.isSecurityError : PyExc → Bool
  | .securityBase | .pathValidation | .operationNotAllowed => true
  | _ => false

/-- Membership in the `TinyFSError` base class of exceptions.py (line 5). -/
def PyExc.isTinyFSError : PyExc → Bool
  | .tinyFSBase | .securityBase | .pathValidation | .operationNotAllowed
  | .sandboxErr | .commandExecutionErr | .operationCancelled => true
  | _ => false

/-- Model of `str(e)`: a stable message for each exception kind (the audit log stores
it in `error_message`). -/
def PyExc.message : PyExc → String
  | .fileNotFound => "file not found"
  | .isADirectory => "is a directory"
  | .notADirectory => "not a directory"
  | .fileExistsErr => "file exists"
  | .valueError => "value error"
  | .shutilError => "destination path already exists"
  | .sameFileError => "same file"
  | .osError => "os error"
  | .tinyFSBase => "tinyfs error"
  | .securityBase => "security error"
  | .pathValidation => "path outside workspace"
  | .operationNotAllowed => "operation not allowed"
  | .sandboxErr => "sandbox error"
  | .commandExecutionErr => "command execution failed"
  | .operationCancelled => "Operation cancelled by user"

/-- Model of `Path.relative_to` (used throughout client.py, e.g. line 196): returns the
relative string when `target` is under `ws` segment-wise, raises `ValueError`
otherwise. -/
def relativeToStr (ws target : Segs) : Except PyExc String :=
  if segsUnder ws target then .ok (relPathStr (target.drop ws.length))
  else .error .valueError

/-! ## The OS filesystem model -/

/-- The filesystem the OS calls act on: a finite map from canonical paths to
text contents (`files`, an association list) and the set of existing
directories (`dirs`). -/
structure FS where
  files : List (Segs × String)
  dirs : List Segs
  deriving Repr, DecidableEq

/-- The text content of the regular file at `p`, if one exists. -/
def FS.readFile (fs : FS) (p : Segs) : Option String :=
  (fs.files.find? (fun e => e.1 = p)).map (fun e => e.2)

/-- There is a regular file at `p`. -/
def FS.isFile (fs : FS) (p : Segs) : Bool :=
  (fs.files.find? (fun e => e.1 = p)).isSome

/-- There is a directory at `p`. -/
def FS.isDir (fs : FS) (p : Segs) : Bool :=
  fs.dirs.contains p

/-- Model of `Path.exists()`: something (file or directory) is at `p`. -/
def FS.pathExists (fs : FS) (p : Segs) : Bool :=
  fs.isFile p || fs.isDir p

/-- Create or overwrite the regular file at `p` with `content`
(`open(p, 'w')` followed by a full write). -/
def FS.setFile (fs : FS) (p : Segs) (content : String) : FS :=
  { fs with files := (p, content) :: fs.files.filter (fun e => ¬ e.1 = p) }

/-- Model of `os.remove(p)`. -/
def FS.removeFile (fs : FS) (p : Segs) : FS :=
  { fs with files := fs.files.filter (fun e => ¬ e.1 = p) }

/-- All ancestors of a canonical path, from the root `[]` up to and including
the path itself. -/
def ancestors : Segs → List Segs
  | [] => [[]]
  | a :: as => [] :: (ancestors as).map (fun q => a :: q)

/-- Model of `p.mkdir(parents=True, exist_ok=True)`: creates `p` and every missing
ancestor as a directory.  If a regular file already sits at `p` it raises
`FileExistsError`; if one sits at a proper ancestor it raises
`NotADirectoryError`; in both cases nothing is created. -/
def FS.mkdirP (fs : FS) (p : Segs) : Except PyExc FS :=
  if (ancestors p).any (fun q => fs.isFile q) then
    if fs.isFile p then .error .fileExistsErr else .error .notADirectory
  else
    .ok { fs with
          dirs := (ancestors p).foldl
            (fun ds q => if ds.contains q then ds else ds ++ [q]) fs.dirs }

/-- Model of `os.rename(src, dest)` for a regular file on one filesystem: the directory
entry moves to `dest`, overwriting a regular file already there; when `src`
and `dest` are the same existing file POSIX makes it a successful no-op. -/
def osRename (fs : FS) (src dest : Segs) : FS :=
  match fs.readFile src with
  | some content => (fs.removeFile src).setFile dest content
  | none => fs

/-- Model of `shutil.move(src, dest)` for a regular-file `src`: if `dest` is an
existing directory the file moves *into* it under its own basename (raising
`shutil.Error` if that slot is taken), otherwise it is renamed to `dest`. -/
def shutilMove (fs : FS) (src dest : Segs) : Except PyExc FS :=
  if fs.isDir dest then
    if fs.pathExists (dest ++ [src.getLastD ""]) then .error .shutilError
    else .ok (osRename fs src (dest ++ [src.getLastD ""]))
  else .ok (osRename fs src dest)

/-- Model of `shutil.copy2(src, dest)` for a regular-file `src`: if `dest` is an
existing directory the copy lands inside it under `src`'s basename; copying a
file onto itself raises `shutil.SameFileError`; opening a directory for
writing raises `IsADirectoryError`. -/
def copyRealDest (fs : FS) (src dest : Segs) : Segs :=
  if fs.isDir dest then dest ++ [src.getLastD ""] else dest

def shutilCopy2 (fs : FS) (src dest : Segs) : Except PyExc FS :=
  if copyRealDest fs src dest = src then .error .sameFileError
  else if fs.isDir (copyRealDest fs src dest) then .error .isADirectory
  else
    match fs.readFile src with
    | some content => .ok (fs.setFile (copyRealDest fs src dest) content)
    | none => .error .fileNotFound

/-- The immediate children of directory `d` present in the filesystem, as
`Path.iterdir()` yields them. -/
def FS.children (fs : FS) (d : Segs) : List Segs :=
  ((fs.files.map (fun e => e.1)) ++ fs.dirs).filter
    (fun p => p.length = d.length + 1 && segsUnder d p)

/-! ## Data models (models.py) -/

/-- Model of `ActionType` (models.py:18). -/
inductive ActionType where
  | read
  | write
  | execute
  | git
  | env
  deriving Repr, DecidableEq

/-- Model of `ActionRecord` (models.py:58).  The wall-clock `timestamp` field is
outside the model and omitted; all other fields are kept with their
`ActionRecord.create` defaults. -/
structure ActionRecord where
  action_type : ActionType
  path : Option String
  command : Option String
  success : Bool
  error_message : Option String
  user_approved : Bool
  deriving Repr, DecidableEq

/-- Model of `ActionRecord.create` (models.py:69) as the operations in client.py use
it: action type and path, every other field at its default. -/
def ActionRecord.create (ty : ActionType) (path : String) : ActionRecord :=
  { action_type := ty
    path := some path
    command := none
    success := true
    error_message := none
    user_approved := false }

/-- Model of `FileInfo` (models.py:27).  The wall-clock `modified_time` field is
outside the model and omitted. -/
structure FileInfo where
  name : String
  path : String
  is_directory : Bool
  size : Option Nat
  deriving Repr, DecidableEq

/-- Model of `FileInfo.from_path` (models.py:36): the workspace-relative path string
(falling back to the absolute one when `relative_to` raises `ValueError`),
directory flag, and byte size for regular files. -/
def FileInfo.from_path (fs : FS) (p : Segs) (relative_to : Segs) : FileInfo :=
  { name := p.getLastD ""
    path :=
      if segsUnder relative_to p then relPathStr (p.drop relative_to.length)
      else pathStr p
    is_directory := fs.isDir p
    size :=
      if fs.isDir p then none
      else (fs.readFile p).map (fun s => s.utf8ByteSize) }

/-! ## The client (client.py) -/

/-- The state of a `TinyFSClient` (client.py:24): the resolved workspace
root, the auto-confirm flag, the history capacity, and the recorded history.
The logger is outside the model. -/
structure Client where
  workspace_dir : Segs
  auto_confirm : Bool
  history_size : Nat
  action_history : List ActionRecord
  deriving Repr, DecidableEq

/-- Model of `_record_action` (client.py:68): append, then trim to the last
`history_size` entries once the length exceeds it.  The trim is the Python
slice `self.action_history[-self.history_size:]`; for `history_size = 0` that
slice is `[-0:]`, which is the *whole* list, so nothing is ever trimmed. -/
def record_action (c : Client) (a : ActionRecord) : Client :=
  if c.history_size < (c.action_history ++ [a]).length then
    if c.history_size = 0 then { c with action_history := c.action_history ++ [a] }
    else
      { c with
        action_history :=
          (c.action_history ++ [a]).drop ((c.action_history ++ [a]).length - c.history_size) }
  else { c with action_history := c.action_history ++ [a] }

/-- Model of `get_history` (client.py:134): `return self.action_history.copy()` — the
recorded history, oldest first.  (The aliasing consequence of `.copy()` is
modelled separately by `get_history_alias` below.) -/
def get_history (c : Client) : List ActionRecord :=
  c.action_history

/-- Model of `_validate_path` (client.py:76): resolve the candidate against the
workspace, then check containment by the raw string comparison
`str(target).startswith(str(self.workspace_dir))` (client.py:102), then the
optional existence check. -/
def validate_path (c : Client) (fs : FS) (path : String) (must_exist : Bool) :
    Except PyExc Segs :=
  if strStartsWith (pathStr (resolveCandidate c.workspace_dir path))
      (pathStr c.workspace_dir) then
    if must_exist && !(fs.pathExists (resolveCandidate c.workspace_dir path)) then
      .error .fileNotFound
    else .ok (resolveCandidate c.workspace_dir path)
  else .error .pathValidation

/-- A confirmation decision source: what the final `return` of
`_request_confirmation` evaluates to for a given operation name and details
string when `auto_confirm` is off. -/
abbrev Gate := String → String → Bool

/-- Model of `_request_confirmation` (client.py:111): auto-confirm short-circuits to
`True`; otherwise the decision is the gate's value. -/
def request_confirmation (gate : Gate) (c : Client) (operation details : String) : Bool :=
  if c.auto_confirm then true
  else gate operation details

/-- The gate of the client as shipped: `_request_confirmation` ends in a
hard-coded `return True` (client.py:132, with a TODO for a real mechanism). -/
def shippedGate : Gate := fun _ _ => true

/-- A gate that denies every request (the spec's interactive callback
returning false / default-deny headless mode). -/
def denyGate : Gate := fun _ _ => false

/-! ## Client operations (client.py)

Each operation returns its Python result (or raised exception) together with
the client and filesystem states after the call. -/

/-- The outcome triple of one client call. -/
abbrev OpResult (α : Type) := Except PyExc α × Client × FS

/-- The failed record a `finally`-audited operation writes when its OS phase
raises `e`. -/
def failRecord (action : ActionRecord) (e : PyExc) : ActionRecord :=
  { action with success := false, error_message := some e.message }

/-- The record written when a confirmation is declined (e.g. client.py:216-219):
`success=False`, the cancellation message, `user_approved=False`. -/
def cancelRecord (action : ActionRecord) : ActionRecord :=
  { action with
    success := false
    error_message := some "Operation cancelled by user"
    user_approved := false }

/-- Universal-newline translation over a character list: CPython text-mode
reads with the default `newline=None` turn every `'\r\n'` pair and every
lone `'\r'` into `'\n'`.  The boolean state records whether the previous
character was a `'\r'` (already emitted as `'\n'`), in which case an
immediately following `'\n'` is absorbed. -/
def univNLAux : Bool → List Char → List Char
  | _, [] => []
  | sawCR, c :: rest =>
    if c = '\r' then '\n' :: univNLAux true rest
    else if c = '\n' then
      if sawCR then univNLAux false rest
      else '\n' :: univNLAux false rest
    else c :: univNLAux false rest

/-- The string the text-mode `open(p, 'r', encoding='utf-8').read()` returns
for a file whose stored bytes decode to `s`: `s` with universal-newline
translation applied. -/
def univNewlines (s : String) : String :=
  String.mk (univNLAux false s.data)

/-- Model of `read_file` (client.py:138): validate (must exist), reject
directories, then read inside the audited `try` block.  The read is a
CPython text-mode read (client.py:160, `open(validated_path, 'r',
encoding='utf-8')` with the default `newline=None`), so the returned string
is the stored content with universal-newline translation applied. -/
def read_file (c : Client) (fs : FS) (path : String) : OpResult String :=
  match validate_path c fs path true with
  | .error e => (.error e, c, fs)
  | .ok target =>
    if fs.isDir target then (.error .isADirectory, c, fs)
    else
      match relativeToStr c.workspace_dir target with
      | .error e => (.error e, c, fs)
      | .ok rel =>
        let action := ActionRecord.create .read rel
        match fs.readFile target with
        | some content => (.ok (univNewlines content), record_action c action, fs)
        | none =>
          (.error .osError, record_action c (failRecord action .osError), fs)

/-- The preview built for the write confirmation details (client.py:205). -/
def writePreview (content : String) : String :=
  if 100 < content.length then content.take 100 ++ "..." else content

/-- The confirmation details string of `write_file` (client.py:208). -/
def writeDetails (rel content : String) : String :=
  "Writing " ++ toString content.length ++ " bytes to " ++ rel
    ++ "\nPreview: " ++ writePreview content

/-- The audited `try` block of `write_file` (client.py:222): open for
writing (raising `IsADirectoryError` on a directory) and write the full
content.  A CPython text-mode write with the default `newline=None` maps
`'\n'` to `os.linesep` — the identity on POSIX, which this model assumes —
so the stored content is the argument string unchanged. -/
def writeOsPhase (c : Client) (fs : FS) (target : Segs) (content : String)
    (action : ActionRecord) : OpResult Bool :=
  if fs.isDir target then
    (.error .isADirectory, record_action c (failRecord action .isADirectory), fs)
  else
    (.ok true, record_action c action, fs.setFile target content)

/-- Model of `write_file` (client.py:173): validate (need not exist), create the
parent directories (client.py:194 — this runs *before* the confirmation
gate), compute the relative path, gate, then write in the audited block. -/
def write_file (gate : Gate) (c : Client) (fs : FS) (path content : String)
    (confirm : Bool) : OpResult Bool :=
  match validate_path c fs path false with
  | .error e => (.error e, c, fs)
  | .ok target =>
    match fs.mkdirP target.dropLast with
    | .error e => (.error e, c, fs)
    | .ok fs1 =>
      match relativeToStr c.workspace_dir target with
      | .error e => (.error e, c, fs1)
      | .ok rel =>
        let action := ActionRecord.create .write rel
        if confirm && !c.auto_confirm then
          let confirmed := request_confirmation gate c "Write File" (writeDetails rel content)
          let action1 := { action with user_approved := confirmed }
          if confirmed then writeOsPhase c fs1 target content action1
          else (.error .operationCancelled, record_action c (cancelRecord action1), fs1)
        else writeOsPhase c fs1 target content action

/-- Model of `list_directory` (client.py:237): validate (must exist), reject
non-directories, then list the immediate children in the audited block. -/
def list_directory (c : Client) (fs : FS) (path : String) : OpResult (List FileInfo) :=
  match validate_path c fs path true with
  | .error e => (.error e, c, fs)
  | .ok target =>
    if !(fs.isDir target) then (.error .notADirectory, c, fs)
    else
      match relativeToStr c.workspace_dir target with
      | .error e => (.error e, c, fs)
      | .ok rel =>
        let action := ActionRecord.create .read rel
        let infos := (fs.children target).map
          (fun p => FileInfo.from_path fs p c.workspace_dir)
        (.ok infos, record_action c action, fs)

/-- The audited `try` block of `create_directory` (client.py:314):
`mkdir(parents=True, exist_ok=True)`. -/
def mkdirOsPhase (c : Client) (fs : FS) (target : Segs)
    (action : ActionRecord) : OpResult Bool :=
  match fs.mkdirP target with
  | .error e => (.error e, record_action c (failRecord action e), fs)
  | .ok fs1 => (.ok true, record_action c action, fs1)

/-- Model of `create_directory` (client.py:277): validate (need not exist), gate, then
create in the audited block. -/
def create_directory (gate : Gate) (c : Client) (fs : FS) (path : String)
    (confirm : Bool) : OpResult Bool :=
  match validate_path c fs path false with
  | .error e => (.error e, c, fs)
  | .ok target =>
    match relativeToStr c.workspace_dir target with
    | .error e => (.error e, c, fs)
    | .ok rel =>
      let action := ActionRecord.create .write rel
      if confirm && !c.auto_confirm then
        let confirmed := request_confirmation gate c "Create Directory"
          ("Creating directory: " ++ rel)
        let action1 := { action with user_approved := confirmed }
        if confirmed then mkdirOsPhase c fs target action1
        else (.error .operationCancelled, record_action c (cancelRecord action1), fs)
      else mkdirOsPhase c fs target action

/-- The audited `try` block of `delete_file` (client.py:367): `os.remove` on
the validated regular file. -/
def deleteOsPhase (c : Client) (fs : FS) (target : Segs)
    (action : ActionRecord) : OpResult Bool :=
  (.ok true, record_action c action, fs.removeFile target)

/-- Model of `delete_file` (client.py:328): validate (must exist), reject directories,
gate, then remove in the audited block. -/
def delete_file (gate : Gate) (c : Client) (fs : FS) (path : String)
    (confirm : Bool) : OpResult Bool :=
  match validate_path c fs path true with
  | .error e => (.error e, c, fs)
  | .ok target =>
    if fs.isDir target then (.error .isADirectory, c, fs)
    else
      match relativeToStr c.workspace_dir target with
      | .error e => (.error e, c, fs)
      | .ok rel =>
        let action := ActionRecord.create .write rel
        if confirm && !c.auto_confirm then
          let confirmed := request_confirmation gate c "Delete File"
            ("Deleting file: " ++ rel)
          let action1 := { action with user_approved := confirmed }
          if confirmed then deleteOsPhase c fs target action1
          else (.error .operationCancelled, record_action c (cancelRecord action1), fs)
        else deleteOsPhase c fs target action

/-- The audited `try` block of `move_file` (client.py:425): create the
destination's parent directories, then `shutil.move`. -/
def moveOsPhase (c : Client) (fs : FS) (src dest : Segs)
    (action : ActionRecord) : OpResult Bool :=
  match fs.mkdirP dest.dropLast with
  | .error e => (.error e, record_action c (failRecord action e), fs)
  | .ok fs1 =>
    match shutilMove fs1 src dest with
    | .error e => (.error e, record_action c (failRecord action e), fs1)
    | .ok fs2 => (.ok true, record_action c action, fs2)

/-- Model of `move_file` (client.py:381): validate source (must exist) and destination
(need not), reject directory sources, gate, then move in the audited block. -/
def move_file (gate : Gate) (c : Client) (fs : FS) (source destination : String)
    (confirm : Bool) : OpResult Bool :=
  match validate_path c fs source true with
  | .error e => (.error e, c, fs)
  | .ok src =>
    match validate_path c fs destination false with
    | .error e => (.error e, c, fs)
    | .ok dest =>
      if fs.isDir src then (.error .isADirectory, c, fs)
      else
        match relativeToStr c.workspace_dir src with
        | .error e => (.error e, c, fs)
        | .ok relSrc =>
          match relativeToStr c.workspace_dir dest with
          | .error e => (.error e, c, fs)
          | .ok relDest =>
            let action := ActionRecord.create .write (relSrc ++ " -> " ++ relDest)
            if confirm && !c.auto_confirm then
              let confirmed := request_confirmation gate c "Move File"
                ("Moving file: " ++ relSrc ++ " -> " ++ relDest)
              let action1 := { action with user_approved := confirmed }
              if confirmed then moveOsPhase c fs src dest action1
              else (.error .operationCancelled, record_action c (cancelRecord action1), fs)
            else moveOsPhase c fs src dest action

/-- The audited `try` block of `copy_file` (client.py:487): create the
destination's parent directories, then `shutil.copy2`. -/
def copyOsPhase (c : Client) (fs : FS) (src dest : Segs)
    (action : ActionRecord) : OpResult Bool :=
  match fs.mkdirP dest.dropLast with
  | .error e => (.error e, record_action c (failRecord action e), fs)
  | .ok fs1 =>
    match shutilCopy2 fs1 src dest with
    | .error e => (.error e, record_action c (failRecord action e), fs1)
    | .ok fs2 => (.ok true, record_action c action, fs2)

/-- Model of `copy_file` (client.py:443): validate source (must exist) and destination
(need not), reject directory sources, gate, then copy in the audited block. -/
def copy_file (gate : Gate) (c : Client) (fs : FS) (source destination : String)
    (confirm : Bool) : OpResult Bool :=
  match validate_path c fs source true with
  | .error e => (.error e, c, fs)
  | .ok src =>
    match validate_path c fs destination false with
    | .error e => (.error e, c, fs)
    | .ok dest =>
      if fs.isDir src then (.error .isADirectory, c, fs)
      else
        match relativeToStr c.workspace_dir src with
        | .error e => (.error e, c, fs)
        | .ok relSrc =>
          match relativeToStr c.workspace_dir dest with
          | .error e => (.error e, c, fs)
          | .ok relDest =>
            let action := ActionRecord.create .write (relSrc ++ " -> " ++ relDest)
            if confirm && !c.auto_confirm then
              let confirmed := request_confirmation gate c "Copy File"
                ("Copying file: " ++ relSrc ++ " -> " ++ relDest)
              let action1 := { action with user_approved := confirmed }
              if confirmed then copyOsPhase c fs src dest action1
              else (.error .operationCancelled, record_action c (cancelRecord action1), fs)
            else copyOsPhase c fs src dest action

/-- Model of `file_exists` (client.py:505): validate without requiring existence,
swallowing `SecurityError` into `False`; any other exception would propagate
(none can in the shipped code, which the C6 theorem proves). -/
def file_exists (c : Client) (fs : FS) (path : String) : Except PyExc Bool :=
  match validate_path c fs path false with
  | .ok target => .ok (fs.pathExists target && fs.isFile target)
  | .error e => if e.isSecurityError then .ok false else .error e

/-- Model of `directory_exists` (client.py:522): as `file_exists`, for directories. -/
def directory_exists (c : Client) (fs : FS) (path : String) : Except PyExc Bool :=
  match validate_path c fs path false with
  | .ok target => .ok (fs.pathExists target && fs.isDir target)
  | .error e => if e.isSecurityError then .ok false else .error e

/-- Model of `get_file_info` (client.py:539): validate with `must_exist=True`,
swallowing `SecurityError` and `FileNotFoundError` into `None`. -/
def get_file_info (c : Client) (fs : FS) (path : String) :
    Except PyExc (Option FileInfo) :=
  match validate_path c fs path true with
  | .ok target => .ok (some (FileInfo.from_path fs target c.workspace_dir))
  | .error e =>
    if e.isSecurityError || e = .fileNotFound then .ok none else .error e

/-! ## The command-line front end (cli.py) -/

/-- The parsed commands of `setup_args_parser` (cli.py:16).  The `exists`
command carries its optional `--type` choice as three constructors;
`noCommand` is the fall-through branch of `execute_command` (cli.py:227). -/
inductive CliCommand where
  | readCmd (path : String)
  | writeCmd (path content : String)
  | listCmd (path : String)
  | mkdirCmd (path : String)
  | deleteCmd (path : String)
  | moveCmd (source destination : String)
  | copyCmd (source destination : String)
  | existsFileCmd (path : String)
  | existsDirCmd (path : String)
  | existsAnyCmd (path : String)
  | infoCmd (path : String)
  | noCommand
  deriving Repr, DecidableEq

/-- The `except` chain of `execute_command` (cli.py:232-249), in source
order: `FileNotFoundError` → 1, `SecurityError` → 2,
`OperationCancelledError` → 3, `TinyFSError` → 4, `Exception` → 5. -/
def exceptionExitCode (e : PyExc) : Nat :=
  if e = .fileNotFound then 1
  else if e.isSecurityError then 2
  else if e = .operationCancelled then 3
  else if e.isTinyFSError then 4
  else 5

/-- The result wrapping of the single `try`/`except` block of
`execute_command` (cli.py:121-249) around one client call: 0 on a
successfully returned value, the `except`-chain code on a raised
exception. -/
def mapExit {α : Type} (x : Except PyExc α × Client × FS) : Nat × Client × FS :=
  match x with
  | (.ok _, c1, fs1) => (0, c1, fs1)
  | (.error e, c1, fs1) => (exceptionExitCode e, c1, fs1)

/-- Model of `execute_command` (cli.py:103): dispatch to the client operation, return
0 on success (1 for an absent `exists`/`info` target and for a missing
command), and map a raised exception through the `except` chain.  The `write`,
`mkdir`, `delete`, `move` and `copy` dispatches call the client with the
default `confirm=True`. -/
def execute_command (gate : Gate) (c : Client) (fs : FS) (cmd : CliCommand) :
    Nat × Client × FS :=
  match cmd with
  | .readCmd p => mapExit (read_file c fs p)
  | .writeCmd p content => mapExit (write_file gate c fs p content true)
  | .listCmd p => mapExit (list_directory c fs p)
  | .mkdirCmd p => mapExit (create_directory gate c fs p true)
  | .deleteCmd p => mapExit (delete_file gate c fs p true)
  | .moveCmd s d => mapExit (move_file gate c fs s d true)
  | .copyCmd s d => mapExit (copy_file gate c fs s d true)
  | .existsFileCmd p =>
    match file_exists c fs p with
    | .ok b => (if b then 0 else 1, c, fs)
    | .error e => (exceptionExitCode e, c, fs)
  | .existsDirCmd p =>
    match directory_exists c fs p with
    | .ok b => (if b then 0 else 1, c, fs)
    | .error e => (exceptionExitCode e, c, fs)
  | .existsAnyCmd p =>
    match file_exists c fs p with
    | .error e => (exceptionExitCode e, c, fs)
    | .ok true => (0, c, fs)
    | .ok false =>
      match directory_exists c fs p with
      | .error e => (exceptionExitCode e, c, fs)
      | .ok b => (if b then 0 else 1, c, fs)
  | .infoCmd p =>
    match get_file_info c fs p with
    | .ok (some _) => (0, c, fs)
    | .ok none => (1, c, fs)
    | .error e => (exceptionExitCode e, c, fs)
  | .noCommand => (1, c, fs)

/-! ## Python list aliasing (for `get_history`'s defensive copy)

`self.action_history` is a heap-allocated Python list; callers receive
references into the heap.  A tiny heap of list cells makes the aliasing
behaviour of `list.copy()` expressible. -/

/-- A heap of Python list objects holding `ActionRecord`s, keyed by object
identity. -/
structure ListHeap where
  cells : List (Nat × List ActionRecord)
  deriving Repr, DecidableEq

/-- Dereference a list object. -/
def ListHeap.lookup (h : ListHeap) (r : Nat) : Option (List ActionRecord) :=
  (h.cells.find? (fun cell => cell.1 = r)).map (fun cell => cell.2)

/-- An object identity not used by any live cell. -/
def ListHeap.freshRef (h : ListHeap) : Nat :=
  (h.cells.map (fun cell => cell.1)).foldr Nat.max 0 + 1

/-- Allocate a new list object with the given contents. -/
def ListHeap.alloc (h : ListHeap) (v : List ActionRecord) : Nat × ListHeap :=
  (h.freshRef, { cells := (h.freshRef, v) :: h.cells })

/-- Mutate the list object `r` in place (append, remove, reorder — any
in-place change replaces the cell's contents). -/
def ListHeap.setRef (h : ListHeap) (r : Nat) (v : List ActionRecord) : ListHeap :=
  { cells := h.cells.map (fun cell => if cell.1 = r then (r, v) else cell) }

/-- Model of `get_history` at the heap level (client.py:134-136): given the client's
`action_history` object, `self.action_history.copy()` allocates a *fresh*
list object with the same elements and returns it. -/
def get_history_alias (histRef : Nat) (h : ListHeap) : Nat × ListHeap :=
  h.alloc ((h.lookup histRef).getD [])

/-! ## Basic lemmas about the embedded definitions -/

lemma validate_path_error_cases {c : Client} {fs : FS} {path : String}
    {m : Bool} {e : PyExc} (h : validate_path c fs path m = .error e) :
    e = .pathValidation ∨ e = .fileNotFound := by
  unfold validate_path at h
  split_ifs at h <;>
    first
      | exact Or.inr (Except.error.inj h).symm
      | exact Or.inl (Except.error.inj h).symm
      | exact Except.noConfusion h

lemma validate_path_ok {c : Client} {fs : FS} {path : String}
    {m : Bool} {t : Segs} (h : validate_path c fs path m = .ok t) :
    t = resolveCandidate c.workspace_dir path ∧
    strStartsWith (pathStr t) (pathStr c.workspace_dir) = true ∧
    (m = true → fs.pathExists t = true) := by
  unfold validate_path at h
  split_ifs at h with h1 h2
  rcases (Except.ok.inj h) with rfl
  refine ⟨rfl, h1, ?_⟩
  intro hm
  subst hm
  simpa using h2

lemma relativeToStr_error_cases {ws target : Segs} {e : PyExc}
    (h : relativeToStr ws target = .error e) : e = .valueError := by
  unfold relativeToStr at h
  split_ifs at h
  exact (Except.error.inj h).symm

lemma relativeToStr_ok_under {ws target : Segs} {rel : String}
    (h : relativeToStr ws target = .ok rel) : segsUnder ws target = true := by
  unfold relativeToStr at h
  split_ifs at h with h1
  · exact h1

lemma mkdirP_error_cases {fs : FS} {p : Segs} {e : PyExc}
    (h : fs.mkdirP p = .error e) :
    e = .fileExistsErr ∨ e = .notADirectory := by
  unfold FS.mkdirP at h
  split_ifs at h
  · exact Or.inl (Except.error.inj h).symm
  · exact Or.inr (Except.error.inj h).symm

lemma mkdirP_ok_files {fs fs1 : FS} {p : Segs}
    (h : fs.mkdirP p = .ok fs1) : fs1.files = fs.files := by
  unfold FS.mkdirP at h
  split_ifs at h
  · rcases (Except.ok.inj h).symm with rfl
    rfl

lemma shutilMove_error_cases {fs : FS} {src dest : Segs} {e : PyExc}
    (h : shutilMove fs src dest = .error e) : e = .shutilError := by
  unfold shutilMove at h
  split_ifs at h <;>
    first
      | exact (Except.error.inj h).symm
      | exact Except.noConfusion h

lemma shutilCopy2_error_cases {fs : FS} {src dest : Segs} {e : PyExc}
    (h : shutilCopy2 fs src dest = .error e) :
    e = .sameFileError ∨ e = .isADirectory ∨ e = .fileNotFound := by
  unfold shutilCopy2 at h
  split_ifs at h
  · exact Or.inl (Except.error.inj h).symm
  · exact Or.inr (Or.inl (Except.error.inj h).symm)
  · split at h
    · exact Except.noConfusion h
    · exact Or.inr (Or.inr (Except.error.inj h).symm)

lemma record_action_fields (c : Client) (a : ActionRecord) :
    (record_action c a).workspace_dir = c.workspace_dir ∧
    (record_action c a).auto_confirm = c.auto_confirm ∧
    (record_action c a).history_size = c.history_size := by
  unfold record_action
  split_ifs <;> exact ⟨rfl, rfl, rfl⟩

lemma request_confirmation_shipped (c : Client) (op details : String) :
    request_confirmation shippedGate c op details = true := by
  unfold request_confirmation shippedGate
  split_ifs <;> rfl

lemma request_confirmation_deny {c : Client} (hauto : c.auto_confirm = false)
    (op details : String) :
    request_confirmation denyGate c op details = false := by
  unfold request_confirmation denyGate
  rw [hauto]
  rfl

lemma contains_eq_true_iff (l : List Segs) (q : Segs) :
    l.contains q = true ↔ q ∈ l :=
  List.elem_iff

lemma find?_key_filter_ne (l : List (Segs × String)) (p q : Segs) (hqp : ¬ q = p) :
    (l.filter (fun e => ¬ e.1 = p)).find? (fun e => e.1 = q)
      = l.find? (fun e => e.1 = q) := by
  induction l with
  | nil => rfl
  | cons a l ih =>
    rw [List.filter_cons]
    by_cases hap : a.1 = p
    · have haq : ¬ (a.1 = q) := fun hq => hqp (hq.symm.trans hap)
      rw [if_neg (by simp [hap]), ih, List.find?_cons_of_neg _ (by simp [haq])]
    · rw [if_pos (by simp [hap])]
      by_cases haq : a.1 = q
      · rw [List.find?_cons_of_pos _ (by simp [haq]),
          List.find?_cons_of_pos _ (by simp [haq])]
      · rw [List.find?_cons_of_neg _ (by simp [haq]),
          List.find?_cons_of_neg _ (by simp [haq]), ih]

lemma find?_key_filter_self (l : List (Segs × String)) (p : Segs) :
    (l.filter (fun e => ¬ e.1 = p)).find? (fun e => e.1 = p) = none := by
  induction l with
  | nil => rfl
  | cons a l ih =>
    rw [List.filter_cons]
    by_cases hap : a.1 = p
    · rw [if_neg (by simp [hap])]
      exact ih
    · rw [if_pos (by simp [hap]), List.find?_cons_of_neg _ (by simp [hap])]
      exact ih

lemma readFile_setFile_self (fs : FS) (p : Segs) (s : String) :
    (fs.setFile p s).readFile p = some s := by
  unfold FS.setFile FS.readFile
  rw [List.find?_cons_of_pos _ (by simp)]
  rfl

lemma readFile_setFile_ne (fs : FS) (p : Segs) (s : String) {q : Segs}
    (h : ¬ q = p) : (fs.setFile p s).readFile q = fs.readFile q := by
  unfold FS.setFile FS.readFile
  rw [List.find?_cons_of_neg _ (by simp; exact fun hh => h hh.symm),
    find?_key_filter_ne fs.files p q h]

lemma readFile_removeFile_self (fs : FS) (p : Segs) :
    (fs.removeFile p).readFile p = none := by
  unfold FS.removeFile FS.readFile
  rw [find?_key_filter_self]
  rfl

lemma readFile_removeFile_ne (fs : FS) (p : Segs) {q : Segs}
    (h : ¬ q = p) : (fs.removeFile p).readFile q = fs.readFile q := by
  unfold FS.removeFile FS.readFile
  rw [find?_key_filter_ne fs.files p q h]

lemma isDir_setFile (fs : FS) (p : Segs) (s : String) (q : Segs) :
    (fs.setFile p s).isDir q = fs.isDir q := rfl

lemma isDir_removeFile (fs : FS) (p q : Segs) :
    (fs.removeFile p).isDir q = fs.isDir q := rfl

lemma isFile_eq_isSome_readFile (fs : FS) (p : Segs) :
    fs.isFile p = (fs.readFile p).isSome := by
  unfold FS.isFile FS.readFile
  cases fs.files.find? (fun e => e.1 = p) <;> rfl

lemma mem_foldl_addDir (qs : List Segs) (ds : List Segs) (q : Segs) :
    (q ∈ qs.foldl (fun ds q1 => if ds.contains q1 then ds else ds ++ [q1]) ds)
      ↔ (q ∈ ds ∨ q ∈ qs) := by
  induction qs generalizing ds with
  | nil => simp
  | cons a qs ih =>
    rw [List.foldl_cons]
    by_cases hda : a ∈ ds
    · rw [if_pos ((contains_eq_true_iff ds a).mpr hda), ih]
      constructor
      · rintro (hq | hq)
        · exact Or.inl hq
        · exact Or.inr (List.mem_cons_of_mem a hq)
      · rintro (hq | hq)
        · exact Or.inl hq
        · rcases List.mem_cons.mp hq with rfl | hq
          · exact Or.inl hda
          · exact Or.inr hq
    · rw [if_neg (fun hc => hda ((contains_eq_true_iff ds a).mp hc)), ih]
      simp only [List.mem_append, List.mem_singleton, List.mem_cons]
      tauto

lemma mkdirP_ok_isDir {fs fs1 : FS} {t : Segs} (h : fs.mkdirP t = .ok fs1)
    (q : Segs) :
    (fs1.isDir q = true ↔ (fs.isDir q = true ∨ q ∈ ancestors t)) := by
  unfold FS.mkdirP at h
  split_ifs at h with hany
  rcases Except.ok.inj h with rfl
  show (FS.mk fs.files _).dirs.contains q = true ↔ _
  rw [contains_eq_true_iff]
  rw [mem_foldl_addDir]
  rw [FS.isDir, contains_eq_true_iff]

lemma mkdirP_ok_no_file {fs fs1 : FS} {t : Segs} (h : fs.mkdirP t = .ok fs1)
    {q : Segs} (hq : q ∈ ancestors t) : fs.isFile q = false := by
  unfold FS.mkdirP at h
  split_ifs at h with hany
  cases hf : fs.isFile q
  · rfl
  · exact absurd (List.any_eq_true.mpr ⟨q, hq, hf⟩) hany

lemma mkdirP_ok_isDir_of_isFile {fs fs1 : FS} {t q : Segs}
    (h : fs.mkdirP t = .ok fs1) (hq : fs.isFile q = true) :
    fs1.isDir q = fs.isDir q := by
  have hnot : q ∉ ancestors t := fun hm => by
    rw [mkdirP_ok_no_file h hm] at hq
    exact Bool.noConfusion hq
  cases hd : fs.isDir q
  · cases hd1 : fs1.isDir q
    · rfl
    · rcases (mkdirP_ok_isDir h q).mp hd1 with hx | hx
      · rw [hd] at hx
        exact Bool.noConfusion hx
      · exact absurd hx hnot
  · exact (mkdirP_ok_isDir h q).mpr (Or.inl hd)

/-- Equality of `Except` outcomes is decidable (needed to evaluate the
concrete scenarios below by `decide`). -/
instance {ε α : Type} [DecidableEq ε] [DecidableEq α] :
    DecidableEq (Except ε α) := fun x y =>
  match x, y with
  | .ok a, .ok b =>
    if h : a = b then isTrue (by rw [h]) else isFalse (fun hh => h (Except.ok.inj hh))
  | .error a, .error b =>
    if h : a = b then isTrue (by rw [h]) else isFalse (fun hh => h (Except.error.inj hh))
  | .ok _, .error _ => isFalse (fun hh => Except.noConfusion hh)
  | .error _, .ok _ => isFalse (fun hh => Except.noConfusion hh)

/-! ## Outcome classifiers used by the claim statements -/

/-- The call raised `OperationCancelledError`. -/
def isCancelledResult {α : Type} : Except PyExc α → Bool
  | .error .operationCancelled => true
  | _ => false

/-- The call returned normally (no exception). -/
def isOkResult {α : Type} : Except PyExc α → Bool
  | .ok _ => true
  | .error _ => false

/-- The exceptions an operation can raise *before* its `ActionRecord` is
created: path validation, the `must_exist` check, the directory-type
pre-checks, and `relative_to`'s `ValueError` — all raised ahead of
`ActionRecord.create` in client.py. -/
def isPreflightErr : PyExc → Bool
  | .pathValidation | .fileNotFound | .isADirectory | .notADirectory
  | .fileExistsErr | .valueError => true
  | _ => false

/-- Either a pre-gate validation failure or the user cancellation. -/
def preflightOrCancelled (e : PyExc) : Bool :=
  isPreflightErr e || e = .operationCancelled

/-! ## Concrete test fixtures -/

/-- A client rooted at `/a/ws` (sibling-collision scenarios). -/
def clientA : Client :=
  { workspace_dir := ["a", "ws"], auto_confirm := false,
    history_size := 100, action_history := [] }

/-- An empty tree containing only `/`, `/a` and the workspace `/a/ws`. -/
def fsA : FS := { files := [], dirs := [[], ["a"], ["a", "ws"]] }

/-- A tree in which the sibling-prefix path `/a/ws-evil/x` exists as a file
outside the workspace `/a/ws`. -/
def fsSibling : FS :=
  { files := [(["a", "ws-evil", "x"], "secret")],
    dirs := [[], ["a"], ["a", "ws"], ["a", "ws-evil"]] }

/-- A client rooted at `/ws` with auto-confirm off. -/
def clientWs : Client :=
  { workspace_dir := ["ws"], auto_confirm := false,
    history_size := 100, action_history := [] }

/-- A client rooted at `/ws` with auto-confirm on. -/
def clientWsAuto : Client := { clientWs with auto_confirm := true }

/-- A client rooted at `/ws` with history capacity `0`. -/
def clientZero : Client := { clientWsAuto with history_size := 0 }

/-- An empty tree containing only `/` and the workspace `/ws`. -/
def fsWs : FS := { files := [], dirs := [[], ["ws"]] }

/-- The tree `/ws` with one file `f` containing `"hi"`. -/
def fsWsF : FS := { files := [(["ws", "f"], "hi")], dirs := [[], ["ws"]] }

/-! ## Claim theorems -/

/-- C1: the claim states that for every candidate path whose canonical form
is not the workspace root or a descendant of it — including sibling-prefix
collisions such as `/a/ws-evil/x` against root `/a/ws` — every operation
raises `PathOutsideWorkspace` and performs no OS call on the target, the
containment check comparing canonical path segments and never a raw string
prefix.  The code instead compares raw strings with `str.startswith`
(client.py:102): `/a/ws-evil/x` *passes* validation against `/a/ws`, and
`write_file` then creates the directory `/a/ws-evil` outside the workspace
before `relative_to` raises a plain `ValueError` (and records nothing).
`../../etc/passwd`-style traversal is rejected as claimed. -/
theorem sibling_path_escapes_workspace :
    segsUnder ["a", "ws"] ["a", "ws-evil", "x"] = false ∧
    validate_path clientA fsA "/a/ws-evil/x" false = .ok ["a", "ws-evil", "x"] ∧
    write_file shippedGate clientA fsA "/a/ws-evil/x" "boom" true
      = (.error .valueError, clientA,
         { files := [], dirs := [[], ["a"], ["a", "ws"], ["a", "ws-evil"]] }) ∧
    fsA.isDir ["a", "ws-evil"] = false ∧
    read_file clientA fsA "../../etc/passwd"
      = (.error .pathValidation, clientA, fsA) := by
  decide

/-- C6 (companion bug): the claim states that `file_exists` and
`directory_exists` return false, and `get_file_info` returns absent, for
every out-of-workspace path.  Because the containment check is a raw string
prefix, an *existing* sibling-prefix path such as `/a/ws-evil/x` outside
root `/a/ws` makes `file_exists` return true and `get_file_info` return an
info record (with an absolute path, since `relative_to` falls back). -/
theorem exists_probes_accept_existing_sibling_paths :
    segsUnder ["a", "ws"] ["a", "ws-evil", "x"] = false ∧
    file_exists clientA fsSibling "/a/ws-evil/x" = .ok true ∧
    directory_exists clientA fsSibling "/a/ws-evil" = .ok true ∧
    get_file_info clientA fsSibling "/a/ws-evil/x"
      = .ok (some { name := "x", path := "/a/ws-evil/x",
                    is_directory := false, size := some 6 }) := by
  decide

/-- C2 counterexample: the claim states that a denied confirmation leaves
the filesystem completely unchanged, with no parent-directory creation.
`write_file` creates the missing parent directories at client.py:194,
*before* the confirmation gate: writing `a/b.txt` with the decision false
raises `OperationCancelledError` but leaves the new directory `/ws/a`
behind. -/
theorem write_file_denied_still_creates_parent_dirs :
    write_file denyGate clientWs fsWs "a/b.txt" "hi" true
      = (.error .operationCancelled,
         { clientWs with action_history :=
            [{ action_type := .write, path := some "a/b.txt", command := none,
               success := false,
               error_message := some "Operation cancelled by user",
               user_approved := false }] },
         { files := [], dirs := [[], ["ws"], ["ws", "a"]] }) ∧
    fsWs.isDir ["ws", "a"] = false := by
  decide

/-- C4 counterexample: the claim states that every mutating operation
appends exactly one `ActionRecord` in all outcomes, including validation
failures such as `PathOutsideWorkspace`.  `_validate_path` raises *before*
`ActionRecord.create` runs: deleting `/etc/passwd` from a client rooted at
`/a/ws` raises `PathValidationError` and appends nothing. -/
theorem delete_file_outside_workspace_appends_no_record :
    delete_file shippedGate clientA fsA "/etc/passwd" true
      = (.error .pathValidation, clientA, fsA) ∧
    get_history clientA = [] := by
  decide

/-- C5 counterexample: the claim states that with history capacity `C` the
log holds exactly `min(N, C)` records.  With `C = 0` the trim slice
`self.action_history[-self.history_size:]` is `[-0:]`, i.e. the whole list
(client.py:74), so one recorded write leaves 1 record where `min(1, 0) = 0`
is claimed. -/
theorem capacity_zero_history_never_trimmed :
    (get_history (write_file shippedGate clientZero fsWs "f" "x" true).2.1).length = 1 ∧
    min 1 clientZero.history_size = 0 := by
  decide

/-- C8 counterexample: the claim states that every successful
`move_file(src, dst)` leaves `src` absent.  `shutil.move` of a file onto
itself is `os.rename(f, f)`, a successful POSIX no-op: `move_file("f", "f")`
returns ok yet `f` still exists. -/
theorem move_file_onto_itself_keeps_source :
    move_file shippedGate clientWsAuto fsWsF "f" "f" true
      = (.ok true,
         { clientWsAuto with action_history :=
            [{ action_type := .write, path := some "f -> f", command := none,
               success := true, error_message := none,
               user_approved := false }] },
         fsWsF) ∧
    fsWsF.isFile ["ws", "f"] = true := by
  decide

lemma isCancelledResult_writeOsPhase (c : Client) (fs : FS) (t : Segs)
    (content : String) (a : ActionRecord) :
    isCancelledResult (writeOsPhase c fs t content a).1 = false := by
  unfold writeOsPhase
  split_ifs <;> rfl

lemma isCancelledResult_mkdirOsPhase (c : Client) (fs : FS) (t : Segs)
    (a : ActionRecord) :
    isCancelledResult (mkdirOsPhase c fs t a).1 = false := by
  unfold mkdirOsPhase
  cases hm : fs.mkdirP t with
  | error e => rcases mkdirP_error_cases hm with rfl | rfl <;> rfl
  | ok fs1 => rfl

lemma isCancelledResult_deleteOsPhase (c : Client) (fs : FS) (t : Segs)
    (a : ActionRecord) :
    isCancelledResult (deleteOsPhase c fs t a).1 = false := rfl

lemma isCancelledResult_moveOsPhase (c : Client) (fs : FS) (s d : Segs)
    (a : ActionRecord) :
    isCancelledResult (moveOsPhase c fs s d a).1 = false := by
  unfold moveOsPhase
  cases hm : fs.mkdirP d.dropLast with
  | error e => rcases mkdirP_error_cases hm with rfl | rfl <;> rfl
  | ok fs1 =>
    dsimp only
    cases hs : shutilMove fs1 s d with
    | error e => rcases shutilMove_error_cases hs with rfl; rfl
    | ok fs2 => rfl

lemma isCancelledResult_copyOsPhase (c : Client) (fs : FS) (s d : Segs)
    (a : ActionRecord) :
    isCancelledResult (copyOsPhase c fs s d a).1 = false := by
  unfold copyOsPhase
  cases hm : fs.mkdirP d.dropLast with
  | error e => rcases mkdirP_error_cases hm with rfl | rfl <;> rfl
  | ok fs1 =>
    dsimp only
    cases hs : shutilCopy2 fs1 s d with
    | error e =>
      dsimp only
      rcases shutilCopy2_error_cases hs with rfl | rfl | rfl <;> rfl
    | ok fs2 => rfl

/-- C3: when `auto_confirm` is false, `_request_confirmation` returns true
for every operation name and details string — there is no interactive
callback and no default-deny (client.py:132 hard-codes `return True`) — so
with the client as shipped a mutating call with `confirm=True` can never
raise `OperationCancelledError`: the gate approves every request. -/
theorem shipped_gate_approves_every_request :
    (∀ (c : Client) (op details : String),
      request_confirmation shippedGate c op details = true) ∧
    (∀ (c : Client) (fs : FS) (p content : String) (confirm : Bool),
      isCancelledResult (write_file shippedGate c fs p content confirm).1 = false) ∧
    (∀ (c : Client) (fs : FS) (p : String) (confirm : Bool),
      isCancelledResult (create_directory shippedGate c fs p confirm).1 = false) ∧
    (∀ (c : Client) (fs : FS) (p : String) (confirm : Bool),
      isCancelledResult (delete_file shippedGate c fs p confirm).1 = false) ∧
    (∀ (c : Client) (fs : FS) (s d : String) (confirm : Bool),
      isCancelledResult (move_file shippedGate c fs s d confirm).1 = false) ∧
    (∀ (c : Client) (fs : FS) (s d : String) (confirm : Bool),
      isCancelledResult (copy_file shippedGate c fs s d confirm).1 = false) := by
  refine ⟨request_confirmation_shipped, ?_, ?_, ?_, ?_, ?_⟩
  · intro c fs p content confirm
    unfold write_file
    cases hv : validate_path c fs p false with
    | error e => rcases validate_path_error_cases hv with rfl | rfl <;> rfl
    | ok target =>
      dsimp only
      cases hm : fs.mkdirP target.dropLast with
      | error e => rcases mkdirP_error_cases hm with rfl | rfl <;> rfl
      | ok fs1 =>
        dsimp only
        cases hr : relativeToStr c.workspace_dir target with
        | error e => rcases relativeToStr_error_cases hr with rfl; rfl
        | ok rel =>
          dsimp only
          by_cases hc : (confirm && !c.auto_confirm) = true
          · rw [if_pos hc, request_confirmation_shipped, if_pos rfl]
            exact isCancelledResult_writeOsPhase ..
          · rw [if_neg hc]
            exact isCancelledResult_writeOsPhase ..
  · intro c fs p confirm
    unfold create_directory
    cases hv : validate_path c fs p false with
    | error e => rcases validate_path_error_cases hv with rfl | rfl <;> rfl
    | ok target =>
      dsimp only
      cases hr : relativeToStr c.workspace_dir target with
      | error e => rcases relativeToStr_error_cases hr with rfl; rfl
      | ok rel =>
        dsimp only
        by_cases hc : (confirm && !c.auto_confirm) = true
        · rw [if_pos hc, request_confirmation_shipped, if_pos rfl]
          exact isCancelledResult_mkdirOsPhase ..
        · rw [if_neg hc]
          exact isCancelledResult_mkdirOsPhase ..
  · intro c fs p confirm
    unfold delete_file
    cases hv : validate_path c fs p true with
    | error e => rcases validate_path_error_cases hv with rfl | rfl <;> rfl
    | ok target =>
      dsimp only
      cases hd : fs.isDir target
      · rw [if_neg (by simp)]
        cases hr : relativeToStr c.workspace_dir target with
        | error e => rcases relativeToStr_error_cases hr with rfl; rfl
        | ok rel =>
          dsimp only
          by_cases hc : (confirm && !c.auto_confirm) = true
          · rw [if_pos hc, request_confirmation_shipped, if_pos rfl]
            exact isCancelledResult_deleteOsPhase ..
          · rw [if_neg hc]
            exact isCancelledResult_deleteOsPhase ..
      · rw [if_pos rfl]
        rfl
  · intro c fs s d confirm
    unfold move_file
    cases hv : validate_path c fs s true with
    | error e => rcases validate_path_error_cases hv with rfl | rfl <;> rfl
    | ok src =>
      dsimp only
      cases hw : validate_path c fs d false with
      | error e => rcases validate_path_error_cases hw with rfl | rfl <;> rfl
      | ok dest =>
        dsimp only
        cases hd : fs.isDir src
        · rw [if_neg (by simp)]
          cases hr : relativeToStr c.workspace_dir src with
          | error e => rcases relativeToStr_error_cases hr with rfl; rfl
          | ok relSrc =>
            dsimp only
            cases hr2 : relativeToStr c.workspace_dir dest with
            | error e => rcases relativeToStr_error_cases hr2 with rfl; rfl
            | ok relDest =>
              dsimp only
              by_cases hc : (confirm && !c.auto_confirm) = true
              · rw [if_pos hc, request_confirmation_shipped, if_pos rfl]
                exact isCancelledResult_moveOsPhase ..
              · rw [if_neg hc]
                exact isCancelledResult_moveOsPhase ..
        · rw [if_pos rfl]
          rfl
  · intro c fs s d confirm
    unfold copy_file
    cases hv : validate_path c fs s true with
    | error e => rcases validate_path_error_cases hv with rfl | rfl <;> rfl
    | ok src =>
      dsimp only
      cases hw : validate_path c fs d false with
      | error e => rcases validate_path_error_cases hw with rfl | rfl <;> rfl
      | ok dest =>
        dsimp only
        cases hd : fs.isDir src
        · rw [if_neg (by simp)]
          cases hr : relativeToStr c.workspace_dir src with
          | error e => rcases relativeToStr_error_cases hr with rfl; rfl
          | ok relSrc =>
            dsimp only
            cases hr2 : relativeToStr c.workspace_dir dest with
            | error e => rcases relativeToStr_error_cases hr2 with rfl; rfl
            | ok relDest =>
              dsimp only
              by_cases hc : (confirm && !c.auto_confirm) = true
              · rw [if_pos hc, request_confirmation_shipped, if_pos rfl]
                exact isCancelledResult_copyOsPhase ..
              · rw [if_neg hc]
                exact isCancelledResult_copyOsPhase ..
        · rw [if_pos rfl]
          rfl

lemma writeOsPhase_client (c : Client) (fs : FS) (t : Segs) (content : String)
    (a : ActionRecord) :
    ∃ r, (writeOsPhase c fs t content a).2.1 = record_action c r := by
  unfold writeOsPhase
  split_ifs <;> exact ⟨_, rfl⟩

lemma mkdirOsPhase_client (c : Client) (fs : FS) (t : Segs) (a : ActionRecord) :
    ∃ r, (mkdirOsPhase c fs t a).2.1 = record_action c r := by
  unfold mkdirOsPhase
  cases fs.mkdirP t <;> exact ⟨_, rfl⟩

lemma deleteOsPhase_client (c : Client) (fs : FS) (t : Segs) (a : ActionRecord) :
    ∃ r, (deleteOsPhase c fs t a).2.1 = record_action c r := ⟨a, rfl⟩

lemma moveOsPhase_client (c : Client) (fs : FS) (s d : Segs) (a : ActionRecord) :
    ∃ r, (moveOsPhase c fs s d a).2.1 = record_action c r := by
  unfold moveOsPhase
  cases fs.mkdirP d.dropLast with
  | error e => exact ⟨_, rfl⟩
  | ok fs1 =>
    dsimp only
    cases shutilMove fs1 s d <;> exact ⟨_, rfl⟩

lemma copyOsPhase_client (c : Client) (fs : FS) (s d : Segs) (a : ActionRecord) :
    ∃ r, (copyOsPhase c fs s d a).2.1 = record_action c r := by
  unfold copyOsPhase
  cases fs.mkdirP d.dropLast with
  | error e => exact ⟨_, rfl⟩
  | ok fs1 =>
    dsimp only
    cases shutilCopy2 fs1 s d <;> exact ⟨_, rfl⟩

/-- C4 amended: every mutating operation (`write_file`, `create_directory`,
`delete_file`, `move_file`, `copy_file`) appends exactly one `ActionRecord`
per call — written after the outcome is known — for every outcome that gets
past the pre-flight phase: success, user cancellation, and OS-phase
exceptions.  Pre-flight failures (path validation, the must-exist check, the
directory-type pre-checks, and `relative_to`'s `ValueError`) are raised
*before* the record is created and append nothing. -/
theorem mutating_ops_append_one_record_after_preflight
    (gate : Gate) (c : Client) (fs : FS) (p q content : String) (confirm : Bool) :
    ((∃ r, (write_file gate c fs p content confirm).2.1 = record_action c r) ∨
      ((write_file gate c fs p content confirm).2.1 = c ∧
        ∃ e, (write_file gate c fs p content confirm).1 = .error e ∧
          isPreflightErr e = true)) ∧
    ((∃ r, (create_directory gate c fs p confirm).2.1 = record_action c r) ∨
      ((create_directory gate c fs p confirm).2.1 = c ∧
        ∃ e, (create_directory gate c fs p confirm).1 = .error e ∧
          isPreflightErr e = true)) ∧
    ((∃ r, (delete_file gate c fs p confirm).2.1 = record_action c r) ∨
      ((delete_file gate c fs p confirm).2.1 = c ∧
        ∃ e, (delete_file gate c fs p confirm).1 = .error e ∧
          isPreflightErr e = true)) ∧
    ((∃ r, (move_file gate c fs p q confirm).2.1 = record_action c r) ∨
      ((move_file gate c fs p q confirm).2.1 = c ∧
        ∃ e, (move_file gate c fs p q confirm).1 = .error e ∧
          isPreflightErr e = true)) ∧
    ((∃ r, (copy_file gate c fs p q confirm).2.1 = record_action c r) ∨
      ((copy_file gate c fs p q confirm).2.1 = c ∧
        ∃ e, (copy_file gate c fs p q confirm).1 = .error e ∧
          isPreflightErr e = true)) := by
  refine ⟨?_, ?_, ?_, ?_, ?_⟩
  · unfold write_file
    cases hv : validate_path c fs p false with
    | error e =>
      rcases validate_path_error_cases hv with rfl | rfl <;>
        exact Or.inr ⟨rfl, _, rfl, rfl⟩
    | ok target =>
      dsimp only
      cases hm : fs.mkdirP target.dropLast with
      | error e =>
        rcases mkdirP_error_cases hm with rfl | rfl <;>
          exact Or.inr ⟨rfl, _, rfl, rfl⟩
      | ok fs1 =>
        dsimp only
        cases hr : relativeToStr c.workspace_dir target with
        | error e =>
          rcases relativeToStr_error_cases hr with rfl
          exact Or.inr ⟨rfl, _, rfl, rfl⟩
        | ok rel =>
          dsimp only
          by_cases hc : (confirm && !c.auto_confirm) = true
          · rw [if_pos hc]
            by_cases hg : request_confirmation gate c "Write File"
                (writeDetails rel content) = true
            · rw [if_pos hg]
              exact Or.inl (writeOsPhase_client ..)
            · rw [if_neg hg]
              exact Or.inl ⟨_, rfl⟩
          · rw [if_neg hc]
            exact Or.inl (writeOsPhase_client ..)
  · unfold create_directory
    cases hv : validate_path c fs p false with
    | error e =>
      rcases validate_path_error_cases hv with rfl | rfl <;>
        exact Or.inr ⟨rfl, _, rfl, rfl⟩
    | ok target =>
      dsimp only
      cases hr : relativeToStr c.workspace_dir target with
      | error e =>
        rcases relativeToStr_error_cases hr with rfl
        exact Or.inr ⟨rfl, _, rfl, rfl⟩
      | ok rel =>
        dsimp only
        by_cases hc : (confirm && !c.auto_confirm) = true
        · rw [if_pos hc]
          by_cases hg : request_confirmation gate c "Create Directory"
              ("Creating directory: " ++ rel) = true
          · rw [if_pos hg]
            exact Or.inl (mkdirOsPhase_client ..)
          · rw [if_neg hg]
            exact Or.inl ⟨_, rfl⟩
        · rw [if_neg hc]
          exact Or.inl (mkdirOsPhase_client ..)
  · unfold delete_file
    cases hv : validate_path c fs p true with
    | error e =>
      rcases validate_path_error_cases hv with rfl | rfl <;>
        exact Or.inr ⟨rfl, _, rfl, rfl⟩
    | ok target =>
      dsimp only
      cases hd : fs.isDir target
      · rw [if_neg (by simp)]
        cases hr : relativeToStr c.workspace_dir target with
        | error e =>
          rcases relativeToStr_error_cases hr with rfl
          exact Or.inr ⟨rfl, _, rfl, rfl⟩
        | ok rel =>
          dsimp only
          by_cases hc : (confirm && !c.auto_confirm) = true
          · rw [if_pos hc]
            by_cases hg : request_confirmation gate c "Delete File"
                ("Deleting file: " ++ rel) = true
            · rw [if_pos hg]
              exact Or.inl (deleteOsPhase_client ..)
            · rw [if_neg hg]
              exact Or.inl ⟨_, rfl⟩
          · rw [if_neg hc]
            exact Or.inl (deleteOsPhase_client ..)
      · rw [if_pos rfl]
        exact Or.inr ⟨rfl, _, rfl, rfl⟩
  · unfold move_file
    cases hv : validate_path c fs p true with
    | error e =>
      rcases validate_path_error_cases hv with rfl | rfl <;>
        exact Or.inr ⟨rfl, _, rfl, rfl⟩
    | ok src =>
      dsimp only
      cases hw : validate_path c fs q false with
      | error e =>
        rcases validate_path_error_cases hw with rfl | rfl <;>
          exact Or.inr ⟨rfl, _, rfl, rfl⟩
      | ok dest =>
        dsimp only
        cases hd : fs.isDir src
        · rw [if_neg (by simp)]
          cases hr : relativeToStr c.workspace_dir src with
          | error e =>
            rcases relativeToStr_error_cases hr with rfl
            exact Or.inr ⟨rfl, _, rfl, rfl⟩
          | ok relSrc =>
            dsimp only
            cases hr2 : relativeToStr c.workspace_dir dest with
            | error e =>
              rcases relativeToStr_error_cases hr2 with rfl
              exact Or.inr ⟨rfl, _, rfl, rfl⟩
            | ok relDest =>
              dsimp only
              by_cases hc : (confirm && !c.auto_confirm) = true
              · rw [if_pos hc]
                by_cases hg : request_confirmation gate c "Move File"
                    ("Moving file: " ++ relSrc ++ " -> " ++ relDest) = true
                · rw [if_pos hg]
                  exact Or.inl (moveOsPhase_client ..)
                · rw [if_neg hg]
                  exact Or.inl ⟨_, rfl⟩
              · rw [if_neg hc]
                exact Or.inl (moveOsPhase_client ..)
        · rw [if_pos rfl]
          exact Or.inr ⟨rfl, _, rfl, rfl⟩
  · unfold copy_file
    cases hv : validate_path c fs p true with
    | error e =>
      rcases validate_path_error_cases hv with rfl | rfl <;>
        exact Or.inr ⟨rfl, _, rfl, rfl⟩
    | ok src =>
      dsimp only
      cases hw : validate_path c fs q false with
      | error e =>
        rcases validate_path_error_cases hw with rfl | rfl <;>
          exact Or.inr ⟨rfl, _, rfl, rfl⟩
      | ok dest =>
        dsimp only
        cases hd : fs.isDir src
        · rw [if_neg (by simp)]
          cases hr : relativeToStr c.workspace_dir src with
          | error e =>
            rcases relativeToStr_error_cases hr with rfl
            exact Or.inr ⟨rfl, _, rfl, rfl⟩
          | ok relSrc =>
            dsimp only
            cases hr2 : relativeToStr c.workspace_dir dest with
            | error e =>
              rcases relativeToStr_error_cases hr2 with rfl
              exact Or.inr ⟨rfl, _, rfl, rfl⟩
            | ok relDest =>
              dsimp only
              by_cases hc : (confirm && !c.auto_confirm) = true
              · rw [if_pos hc]
                by_cases hg : request_confirmation gate c "Copy File"
                    ("Copying file: " ++ relSrc ++ " -> " ++ relDest) = true
                · rw [if_pos hg]
                  exact Or.inl (copyOsPhase_client ..)
                · rw [if_neg hg]
                  exact Or.inl ⟨_, rfl⟩
              · rw [if_neg hc]
                exact Or.inl (copyOsPhase_client ..)
        · rw [if_pos rfl]
          exact Or.inr ⟨rfl, _, rfl, rfl⟩

/-- C2 amended: with `confirm=True`, auto-confirm off and the confirmation
decision false, every mutating operation raises — `OperationCancelledError`
whenever the call reaches the gate, a pre-flight validation error otherwise
— and never succeeds.  `delete_file`, `move_file`, `copy_file` and
`create_directory` leave the filesystem completely unchanged; `write_file`
leaves the file map unchanged but creates the target's missing parent
directories, because client.py:194 runs before the confirmation gate. -/
theorem denied_mutations_raise_and_leave_files_unchanged
    (c : Client) (fs : FS) (p q content : String)
    (hauto : c.auto_confirm = false) :
    (((write_file denyGate c fs p content true).1 = .error .operationCancelled ∨
        ∃ e, (write_file denyGate c fs p content true).1 = .error e ∧
          isPreflightErr e = true) ∧
      (write_file denyGate c fs p content true).2.2.files = fs.files) ∧
    (((create_directory denyGate c fs p true).1 = .error .operationCancelled ∨
        ∃ e, (create_directory denyGate c fs p true).1 = .error e ∧
          isPreflightErr e = true) ∧
      (create_directory denyGate c fs p true).2.2 = fs) ∧
    (((delete_file denyGate c fs p true).1 = .error .operationCancelled ∨
        ∃ e, (delete_file denyGate c fs p true).1 = .error e ∧
          isPreflightErr e = true) ∧
      (delete_file denyGate c fs p true).2.2 = fs) ∧
    (((move_file denyGate c fs p q true).1 = .error .operationCancelled ∨
        ∃ e, (move_file denyGate c fs p q true).1 = .error e ∧
          isPreflightErr e = true) ∧
      (move_file denyGate c fs p q true).2.2 = fs) ∧
    (((copy_file denyGate c fs p q true).1 = .error .operationCancelled ∨
        ∃ e, (copy_file denyGate c fs p q true).1 = .error e ∧
          isPreflightErr e = true) ∧
      (copy_file denyGate c fs p q true).2.2 = fs) := by
  refine ⟨?_, ?_, ?_, ?_, ?_⟩
  · unfold write_file
    cases hv : validate_path c fs p false with
    | error e =>
      rcases validate_path_error_cases hv with rfl | rfl <;>
        exact ⟨Or.inr ⟨_, rfl, rfl⟩, rfl⟩
    | ok target =>
      dsimp only
      cases hm : fs.mkdirP target.dropLast with
      | error e =>
        rcases mkdirP_error_cases hm with rfl | rfl <;>
          exact ⟨Or.inr ⟨_, rfl, rfl⟩, rfl⟩
      | ok fs1 =>
        dsimp only
        cases hr : relativeToStr c.workspace_dir target with
        | error e =>
          rcases relativeToStr_error_cases hr with rfl
          exact ⟨Or.inr ⟨_, rfl, rfl⟩, mkdirP_ok_files hm⟩
        | ok rel =>
          dsimp only
          rw [hauto, if_pos (show (true && !false) = true from rfl),
            request_confirmation_deny hauto,
            if_neg (by simp)]
          exact ⟨Or.inl rfl, mkdirP_ok_files hm⟩
  · unfold create_directory
    cases hv : validate_path c fs p false with
    | error e =>
      rcases validate_path_error_cases hv with rfl | rfl <;>
        exact ⟨Or.inr ⟨_, rfl, rfl⟩, rfl⟩
    | ok target =>
      dsimp only
      cases hr : relativeToStr c.workspace_dir target with
      | error e =>
        rcases relativeToStr_error_cases hr with rfl
        exact ⟨Or.inr ⟨_, rfl, rfl⟩, rfl⟩
      | ok rel =>
        dsimp only
        rw [hauto, if_pos (show (true && !false) = true from rfl),
            request_confirmation_deny hauto,
          if_neg (by simp)]
        exact ⟨Or.inl rfl, rfl⟩
  · unfold delete_file
    cases hv : validate_path c fs p true with
    | error e =>
      rcases validate_path_error_cases hv with rfl | rfl <;>
        exact ⟨Or.inr ⟨_, rfl, rfl⟩, rfl⟩
    | ok target =>
      dsimp only
      cases hd : fs.isDir target
      · rw [if_neg (by simp)]
        cases hr : relativeToStr c.workspace_dir target with
        | error e =>
          rcases relativeToStr_error_cases hr with rfl
          exact ⟨Or.inr ⟨_, rfl, rfl⟩, rfl⟩
        | ok rel =>
          dsimp only
          rw [hauto, if_pos (show (true && !false) = true from rfl),
            request_confirmation_deny hauto,
            if_neg (by simp)]
          exact ⟨Or.inl rfl, rfl⟩
      · rw [if_pos rfl]
        exact ⟨Or.inr ⟨_, rfl, rfl⟩, rfl⟩
  · unfold move_file
    cases hv : validate_path c fs p true with
    | error e =>
      rcases validate_path_error_cases hv with rfl | rfl <;>
        exact ⟨Or.inr ⟨_, rfl, rfl⟩, rfl⟩
    | ok src =>
      dsimp only
      cases hw : validate_path c fs q false with
      | error e =>
        rcases validate_path_error_cases hw with rfl | rfl <;>
          exact ⟨Or.inr ⟨_, rfl, rfl⟩, rfl⟩
      | ok dest =>
        dsimp only
        cases hd : fs.isDir src
        · rw [if_neg (by simp)]
          cases hr : relativeToStr c.workspace_dir src with
          | error e =>
            rcases relativeToStr_error_cases hr with rfl
            exact ⟨Or.inr ⟨_, rfl, rfl⟩, rfl⟩
          | ok relSrc =>
            dsimp only
            cases hr2 : relativeToStr c.workspace_dir dest with
            | error e =>
              rcases relativeToStr_error_cases hr2 with rfl
              exact ⟨Or.inr ⟨_, rfl, rfl⟩, rfl⟩
            | ok relDest =>
              dsimp only
              rw [hauto, if_pos (show (true && !false) = true from rfl),
            request_confirmation_deny hauto,
                if_neg (by simp)]
              exact ⟨Or.inl rfl, rfl⟩
        · rw [if_pos rfl]
          exact ⟨Or.inr ⟨_, rfl, rfl⟩, rfl⟩
  · unfold copy_file
    cases hv : validate_path c fs p true with
    | error e =>
      rcases validate_path_error_cases hv with rfl | rfl <;>
        exact ⟨Or.inr ⟨_, rfl, rfl⟩, rfl⟩
    | ok src =>
      dsimp only
      cases hw : validate_path c fs q false with
      | error e =>
        rcases validate_path_error_cases hw with rfl | rfl <;>
          exact ⟨Or.inr ⟨_, rfl, rfl⟩, rfl⟩
      | ok dest =>
        dsimp only
        cases hd : fs.isDir src
        · rw [if_neg (by simp)]
          cases hr : relativeToStr c.workspace_dir src with
          | error e =>
            rcases relativeToStr_error_cases hr with rfl
            exact ⟨Or.inr ⟨_, rfl, rfl⟩, rfl⟩
          | ok relSrc =>
            dsimp only
            cases hr2 : relativeToStr c.workspace_dir dest with
            | error e =>
              rcases relativeToStr_error_cases hr2 with rfl
              exact ⟨Or.inr ⟨_, rfl, rfl⟩, rfl⟩
            | ok relDest =>
              dsimp only
              rw [hauto, if_pos (show (true && !false) = true from rfl),
            request_confirmation_deny hauto,
                if_neg (by simp)]
              exact ⟨Or.inl rfl, rfl⟩
        · rw [if_pos rfl]
          exact ⟨Or.inr ⟨_, rfl, rfl⟩, rfl⟩

/-- A sequence of `_record_action` calls, in order. -/
def recordAll (c : Client) (rs : List ActionRecord) : Client :=
  rs.foldl record_action c

lemma recordAll_cons (c : Client) (r : ActionRecord) (rs : List ActionRecord) :
    recordAll c (r :: rs) = recordAll (record_action c r) rs := rfl

lemma record_action_history {c : Client} (hC : 0 < c.history_size)
    (a : ActionRecord) :
    (record_action c a).action_history
      = (c.action_history ++ [a]).drop
          ((c.action_history ++ [a]).length - c.history_size) := by
  unfold record_action
  split_ifs with h1 h2
  · exact absurd h2 (by omega)
  · rfl
  · have hle : (c.action_history ++ [a]).length ≤ c.history_size :=
      Nat.le_of_not_lt h1
    rw [Nat.sub_eq_zero_of_le hle, List.drop_zero]

lemma drop_trim_append (a b : List ActionRecord) (C : Nat) :
    ((a.drop (a.length - C)) ++ b).drop
        (((a.drop (a.length - C)) ++ b).length - C)
      = (a ++ b).drop ((a ++ b).length - C) := by
  by_cases h : a.length ≤ C
  · rw [Nat.sub_eq_zero_of_le h, List.drop_zero]
  · have hk : a.length - C ≤ a.length := Nat.sub_le a.length C
    rw [← List.drop_append_of_le_length hk, List.drop_drop]
    congr 1
    simp only [List.length_drop, List.length_append]
    omega

lemma recordAll_history {C : Nat} (hC : 0 < C) :
    ∀ (rs : List ActionRecord) (c : Client), c.history_size = C →
      c.action_history.length ≤ C →
      (recordAll c rs).action_history
        = (c.action_history ++ rs).drop ((c.action_history ++ rs).length - C) := by
  intro rs
  induction rs with
  | nil =>
    intro c hsz hlen
    simp only [recordAll, List.foldl_nil, List.append_nil]
    rw [Nat.sub_eq_zero_of_le hlen, List.drop_zero]
  | cons r rs ih =>
    intro c hsz hlen
    rw [recordAll_cons]
    have hCc : 0 < c.history_size := by rw [hsz]; exact hC
    have hsz2 : (record_action c r).history_size = C := by
      rw [(record_action_fields c r).2.2, hsz]
    have hhist : (record_action c r).action_history
        = (c.action_history ++ [r]).drop
            ((c.action_history ++ [r]).length - c.history_size) :=
      record_action_history hCc r
    have hlen2 : (record_action c r).action_history.length ≤ C := by
      rw [hhist, List.length_drop, hsz]
      omega
    rw [ih (record_action c r) hsz2 hlen2, hhist, hsz, drop_trim_append]
    congr 1 <;> rw [List.append_assoc, List.singleton_append]

/-- C5 amended (the original claim holds only for capacity `C ≥ 1`; for
`C = 0` the Python slice `[-0:]` never trims): after any sequence of N
recorded operations on a client that starts with an empty history and has
capacity `C ≥ 1`, `get_history()` returns exactly the last `min(N, C)`
records, ordered oldest first and newest last, the oldest entries evicted
first; the log length never exceeds `C`. -/
theorem history_fifo_min_bound (c : Client) (rs : List ActionRecord)
    (h0 : c.action_history = []) (hC : 0 < c.history_size) :
    get_history (recordAll c rs) = rs.drop (rs.length - c.history_size) ∧
    (get_history (recordAll c rs)).length = min rs.length c.history_size ∧
    (get_history (recordAll c rs)).length ≤ c.history_size := by
  have key := recordAll_history (C := c.history_size) hC rs c rfl
    (by rw [h0]; simp)
  rw [h0] at key
  simp only [List.nil_append] at key
  refine ⟨?_, ?_, ?_⟩
  · rw [get_history, key]
  · rw [get_history, key, List.length_drop]
    omega
  · rw [get_history, key, List.length_drop]
    omega

/-- Witness for C5's amended theorem: three records against capacity 100. -/
theorem history_fifo_min_bound_witness :
    get_history (recordAll clientWs
        [ActionRecord.create .read "a", ActionRecord.create .write "b",
          ActionRecord.create .read "c"])
      = [ActionRecord.create .read "a", ActionRecord.create .write "b",
          ActionRecord.create .read "c"].drop
          ([ActionRecord.create .read "a", ActionRecord.create .write "b",
            ActionRecord.create .read "c"].length - clientWs.history_size) ∧
    (get_history (recordAll clientWs
        [ActionRecord.create .read "a", ActionRecord.create .write "b",
          ActionRecord.create .read "c"])).length
      = min [ActionRecord.create .read "a", ActionRecord.create .write "b",
          ActionRecord.create .read "c"].length clientWs.history_size ∧
    (get_history (recordAll clientWs
        [ActionRecord.create .read "a", ActionRecord.create .write "b",
          ActionRecord.create .read "c"])).length ≤ clientWs.history_size :=
  history_fifo_min_bound clientWs
    [ActionRecord.create .read "a", ActionRecord.create .write "b",
      ActionRecord.create .read "c"] rfl (by decide)

lemma univNLAux_no_cr : ∀ {l : List Char}, ¬ '\r' ∈ l →
    univNLAux false l = l := by
  intro l
  induction l with
  | nil =>
    intro h
    rfl
  | cons c rest ih =>
    intro h
    have hc : ¬ c = '\r' := fun hE => h (by rw [hE]; exact List.mem_cons_self _ _)
    have hrest : ¬ '\r' ∈ rest := fun hm => h (List.mem_cons_of_mem c hm)
    show univNLAux false (c :: rest) = c :: rest
    simp only [univNLAux]
    rw [if_neg hc]
    by_cases hn : c = '\n'
    · rw [if_pos hn, if_neg (by simp), ih hrest, hn]
    · rw [if_neg hn, ih hrest]

lemma univNewlines_no_cr {s : String} (h : ¬ '\r' ∈ s.toList) :
    univNewlines s = s := by
  unfold univNewlines
  rw [show s.data = s.toList from rfl, univNLAux_no_cr h]
  rfl

lemma read_after_writeOsPhase {c c1 : Client} {fs fs2 fs1 : FS}
    {p content : String} {target : Segs} {rel : String} {action : ActionRecord}
    (hv : validate_path c fs p false = .ok target)
    (hr : relativeToStr c.workspace_dir target = .ok rel)
    (h : writeOsPhase c fs2 target content action = (.ok true, c1, fs1)) :
    (read_file c1 fs1 p).1 = .ok (univNewlines content) := by
  unfold writeOsPhase at h
  by_cases hd : fs2.isDir target = true
  · rw [if_pos hd] at h
    exact absurd h (by simp)
  · rw [if_neg hd] at h
    injection h with hA hBC
    injection hBC with hB hC2
    subst hB
    subst hC2
    obtain ⟨htarget, hstart, -⟩ := validate_path_ok hv
    have hws : (record_action c action).workspace_dir = c.workspace_dir :=
      (record_action_fields c action).1
    have hval : validate_path (record_action c action)
        (fs2.setFile target content) p true = .ok target := by
      unfold validate_path
      rw [hws, ← htarget, if_pos hstart]
      have hex : (fs2.setFile target content).pathExists target = true := by
        unfold FS.pathExists
        rw [isFile_eq_isSome_readFile, readFile_setFile_self]
        rfl
      rw [hex, if_neg (by simp)]
    unfold read_file
    rw [hval]
    dsimp only
    rw [if_neg (by rw [isDir_setFile]; exact hd), hws, hr]
    dsimp only
    rw [readFile_setFile_self]

/-- C7 counterexample: the claim states the round-trip returns exactly the
written content for *every* text content.  `write_file` stores the bytes of
`"a\r\nb"` unchanged (text-mode write is the identity on POSIX), the write
succeeds, but `read_file` opens the file in text mode with the default
`newline=None`, so CPython's universal-newline translation returns
`"a\nb"`, not the written `"a\r\nb"`. -/
theorem crlf_write_read_normalizes_newlines :
    write_file shippedGate clientWsAuto fsWs "f.txt" "a\r\nb" true
      = (.ok true,
         { clientWsAuto with action_history :=
            [{ action_type := .write, path := some "f.txt", command := none,
               success := true, error_message := none,
               user_approved := false }] },
         { files := [(["ws", "f.txt"], "a\r\nb")], dirs := [[], ["ws"]] }) ∧
    (read_file
      { clientWsAuto with action_history :=
          [{ action_type := .write, path := some "f.txt", command := none,
             success := true, error_message := none,
             user_approved := false }] }
      { files := [(["ws", "f.txt"], "a\r\nb")], dirs := [[], ["ws"]] }
      "f.txt").1 = .ok "a\nb" ∧
    (("a\nb" : String) == "a\r\nb") = false := by
  decide

/-- C7 amended: for every carriage-return-free text content `c` and every
in-workspace path `p`, a successful `write_file(p, c)` followed by
`read_file(p)` returns exactly `c`.  (For contents containing `'\r'`, the
text-mode read's universal-newline translation turns `'\r\n'` and lone
`'\r'` into `'\n'`, so the read-back differs from the written content.) -/
theorem write_then_read_roundtrip (gate : Gate) (c c1 : Client)
    (fs fs1 : FS) (p content : String) (confirm : Bool)
    (hcr : ¬ '\r' ∈ content.toList)
    (h : write_file gate c fs p content confirm = (.ok true, c1, fs1)) :
    (read_file c1 fs1 p).1 = .ok content := by
  rw [← univNewlines_no_cr hcr]
  unfold write_file at h
  revert h
  cases hv : validate_path c fs p false with
  | error e =>
    intro h
    exact absurd h (by simp)
  | ok target =>
    intro h
    dsimp only at h
    revert h
    cases hm : fs.mkdirP target.dropLast with
    | error e =>
      intro h
      exact absurd h (by simp)
    | ok fs2 =>
      intro h
      dsimp only at h
      revert h
      cases hr : relativeToStr c.workspace_dir target with
      | error e =>
        intro h
        exact absurd h (by simp)
      | ok rel =>
        intro h
        dsimp only at h
        by_cases hcf : (confirm && !c.auto_confirm) = true
        · rw [if_pos hcf] at h
          by_cases hg : request_confirmation gate c "Write File"
              (writeDetails rel content) = true
          · rw [if_pos hg] at h
            exact read_after_writeOsPhase hv hr h
          · rw [if_neg hg] at h
            exact absurd h (by simp)
        · rw [if_neg hcf] at h
          exact read_after_writeOsPhase hv hr h

/-- Witness for C7's amended theorem at a concrete write: `/ws` workspace,
writing then reading `f.txt` with the carriage-return-free content
`"hello"`. -/
theorem write_then_read_roundtrip_witness :
    (read_file
      { clientWsAuto with action_history :=
          [{ action_type := .write, path := some "f.txt", command := none,
             success := true, error_message := none, user_approved := false }] }
      { files := [(["ws", "f.txt"], "hello")], dirs := [[], ["ws"]] }
      "f.txt").1 = .ok "hello" :=
  write_then_read_roundtrip shippedGate clientWsAuto
    { clientWsAuto with action_history :=
        [{ action_type := .write, path := some "f.txt", command := none,
           success := true, error_message := none, user_approved := false }] }
    fsWs
    { files := [(["ws", "f.txt"], "hello")], dirs := [[], ["ws"]] }
    "f.txt" "hello" true (by decide) (by decide)

lemma length_le_of_mem_ancestors {t q : Segs} (h : q ∈ ancestors t) :
    q.length ≤ t.length := by
  induction t generalizing q with
  | nil =>
    simp only [ancestors, List.mem_singleton] at h
    subst h
    exact Nat.le_refl 0
  | cons a t ih =>
    simp only [ancestors, List.mem_cons, List.mem_map] at h
    rcases h with rfl | ⟨r, hr, rfl⟩
    · exact Nat.zero_le _
    · simpa using Nat.succ_le_succ (ih hr)

lemma readFile_eq_of_files_eq {fs1 fs : FS} (h : fs1.files = fs.files)
    (p : Segs) : fs1.readFile p = fs.readFile p := by
  unfold FS.readFile
  rw [h]

lemma mkdirP_ok_isDir_false {fs fsm : FS} {t d : Segs}
    (hm : fs.mkdirP t = .ok fsm) (hdir : fs.isDir d = false)
    (hlen : t.length < d.length) : fsm.isDir d = false := by
  cases hx : fsm.isDir d
  · rfl
  · rcases (mkdirP_ok_isDir hm d).mp hx with hc | hc
    · rw [hdir] at hc
      exact Bool.noConfusion hc
    · have := length_le_of_mem_ancestors hc
      omega

lemma moveOsPhase_semantics {c c1 : Client} {fs fs1 : FS} {s d : Segs}
    {action : ActionRecord}
    (hne : ¬ s = d) (hdir : fs.isDir d = false) (hroot : fs.isDir [] = true)
    (hsf : fs.isFile s = true) (hsd : fs.isDir s = false)
    (h : moveOsPhase c fs s d action = (.ok true, c1, fs1)) :
    fs1.pathExists s = false ∧ fs1.readFile d = fs.readFile s := by
  unfold moveOsPhase at h
  revert h
  cases hm : fs.mkdirP d.dropLast with
  | error e =>
    intro h
    exact absurd h (by simp)
  | ok fsm =>
    intro h
    dsimp only at h
    have hdnil : ¬ d = [] := by
      intro hE
      rw [hE] at hdir
      rw [hdir] at hroot
      exact Bool.noConfusion hroot
    have hmdirs : fsm.isDir d = false := by
      refine mkdirP_ok_isDir_false hm hdir ?_
      rw [List.length_dropLast]
      have hpos : 0 < d.length := List.length_pos.mpr hdnil
      omega
    obtain ⟨content, hc⟩ : ∃ content, fs.readFile s = some content := by
      rw [isFile_eq_isSome_readFile] at hsf
      cases hx : fs.readFile s
      · rw [hx] at hsf
        exact Bool.noConfusion hsf
      · exact ⟨_, rfl⟩
    have hrd : fsm.readFile s = fs.readFile s :=
      readFile_eq_of_files_eq (mkdirP_ok_files hm) s
    have hsm : shutilMove fsm s d = .ok ((fsm.removeFile s).setFile d content) := by
      unfold shutilMove
      rw [hmdirs, if_neg (by simp)]
      unfold osRename
      rw [hrd, hc]
    rw [hsm] at h
    dsimp only at h
    injection h with hA hBC
    injection hBC with hB hC2
    subst hC2
    have hmds : fsm.isDir s = fs.isDir s := mkdirP_ok_isDir_of_isFile hm hsf
    constructor
    · unfold FS.pathExists
      rw [isFile_eq_isSome_readFile, readFile_setFile_ne _ _ _ hne,
        readFile_removeFile_self, isDir_setFile, isDir_removeFile, hmds, hsd]
      rfl
    · rw [readFile_setFile_self, hc]

lemma copyOsPhase_semantics {c c2 : Client} {fs fs2 : FS} {s d : Segs}
    {action : ActionRecord}
    (hne : ¬ s = d) (hdir : fs.isDir d = false) (hroot : fs.isDir [] = true)
    (hsf : fs.isFile s = true)
    (h : copyOsPhase c fs s d action = (.ok true, c2, fs2)) :
    fs2.readFile s = fs.readFile s ∧ fs2.isFile s = true ∧
    fs2.readFile d = fs.readFile s := by
  unfold copyOsPhase at h
  revert h
  cases hm : fs.mkdirP d.dropLast with
  | error e =>
    intro h
    exact absurd h (by simp)
  | ok fsm =>
    intro h
    dsimp only at h
    have hdnil : ¬ d = [] := by
      intro hE
      rw [hE] at hdir
      rw [hdir] at hroot
      exact Bool.noConfusion hroot
    have hmdirs : fsm.isDir d = false := by
      refine mkdirP_ok_isDir_false hm hdir ?_
      rw [List.length_dropLast]
      have hpos : 0 < d.length := List.length_pos.mpr hdnil
      omega
    obtain ⟨content, hc⟩ : ∃ content, fs.readFile s = some content := by
      rw [isFile_eq_isSome_readFile] at hsf
      cases hx : fs.readFile s
      · rw [hx] at hsf
        exact Bool.noConfusion hsf
      · exact ⟨_, rfl⟩
    have hrd : fsm.readFile s = fs.readFile s :=
      readFile_eq_of_files_eq (mkdirP_ok_files hm) s
    have hreal : copyRealDest fsm s d = d := by
      unfold copyRealDest
      rw [hmdirs]
      rfl
    have hcp : shutilCopy2 fsm s d = .ok (fsm.setFile d content) := by
      unfold shutilCopy2
      rw [hreal, if_neg (fun hE => hne hE.symm), hmdirs, if_neg (by simp),
        hrd, hc]
    rw [hcp] at h
    dsimp only at h
    injection h with hA hBC
    injection hBC with hB hC2
    subst hC2
    refine ⟨?_, ?_, ?_⟩
    · rw [readFile_setFile_ne _ _ _ hne, hrd]
    · rw [isFile_eq_isSome_readFile, readFile_setFile_ne _ _ _ hne, hrd, hc]
      rfl
    · rw [readFile_setFile_self, hc]

/-- C8 amended: for a source and destination that resolve to *distinct*
canonical paths, with the destination not an existing directory (and the
root directory present, as on any real system): a successful
`copy_file(src, dst)` leaves `src` unchanged, a successful
`move_file(src, dst)` leaves `src` absent, and in both cases `dst`
afterwards is content-equal to `src`'s pre-operation content.  (Moving a
file onto itself succeeds and keeps it, and a directory destination
receives the file *inside* itself — hence the two restrictions.) -/
theorem move_copy_content_semantics (gate : Gate) (c c1 c2 : Client)
    (fs fs1 fs2 : FS) (src dst : String) (confirm : Bool)
    (hne : ¬ resolveCandidate c.workspace_dir src
            = resolveCandidate c.workspace_dir dst)
    (hdir : fs.isDir (resolveCandidate c.workspace_dir dst) = false)
    (hroot : fs.isDir [] = true) :
    (move_file gate c fs src dst confirm = (.ok true, c1, fs1) →
      fs1.pathExists (resolveCandidate c.workspace_dir src) = false ∧
      fs1.readFile (resolveCandidate c.workspace_dir dst)
        = fs.readFile (resolveCandidate c.workspace_dir src)) ∧
    (copy_file gate c fs src dst confirm = (.ok true, c2, fs2) →
      fs2.readFile (resolveCandidate c.workspace_dir src)
        = fs.readFile (resolveCandidate c.workspace_dir src) ∧
      fs2.isFile (resolveCandidate c.workspace_dir src) = true ∧
      fs2.readFile (resolveCandidate c.workspace_dir dst)
        = fs.readFile (resolveCandidate c.workspace_dir src)) := by
  constructor
  · intro h
    unfold move_file at h
    revert h
    cases hvs : validate_path c fs src true with
    | error e =>
      intro h
      exact absurd h (by simp)
    | ok s0 =>
      intro h
      dsimp only at h
      revert h
      cases hvd : validate_path c fs dst false with
      | error e =>
        intro h
        exact absurd h (by simp)
      | ok d0 =>
        obtain ⟨hs_eq, hstart_s, hmust⟩ := validate_path_ok hvs
        obtain ⟨hd_eq, hstart_d, -⟩ := validate_path_ok hvd
        subst hs_eq
        subst hd_eq
        intro h
        dsimp only at h
        revert h
        cases hdsrc : fs.isDir (resolveCandidate c.workspace_dir src)
        · intro h
          rw [if_neg (by simp)] at h
          revert h
          cases hr1 : relativeToStr c.workspace_dir
              (resolveCandidate c.workspace_dir src) with
          | error e =>
            intro h
            exact absurd h (by simp)
          | ok relSrc =>
            intro h
            dsimp only at h
            revert h
            cases hr2 : relativeToStr c.workspace_dir
                (resolveCandidate c.workspace_dir dst) with
            | error e =>
              intro h
              exact absurd h (by simp)
            | ok relDest =>
              intro h
              dsimp only at h
              have hsf : fs.isFile (resolveCandidate c.workspace_dir src) = true := by
                have hex := hmust rfl
                unfold FS.pathExists at hex
                rw [hdsrc] at hex
                simpa using hex
              by_cases hcf : (confirm && !c.auto_confirm) = true
              · rw [if_pos hcf] at h
                by_cases hg : request_confirmation gate c "Move File"
                    ("Moving file: " ++ relSrc ++ " -> " ++ relDest) = true
                · rw [if_pos hg] at h
                  exact moveOsPhase_semantics hne hdir hroot hsf hdsrc h
                · rw [if_neg hg] at h
                  exact absurd h (by simp)
              · rw [if_neg hcf] at h
                exact moveOsPhase_semantics hne hdir hroot hsf hdsrc h
        · intro h
          rw [if_pos rfl] at h
          exact absurd h (by simp)
  · intro h
    unfold copy_file at h
    revert h
    cases hvs : validate_path c fs src true with
    | error e =>
      intro h
      exact absurd h (by simp)
    | ok s0 =>
      intro h
      dsimp only at h
      revert h
      cases hvd : validate_path c fs dst false with
      | error e =>
        intro h
        exact absurd h (by simp)
      | ok d0 =>
        obtain ⟨hs_eq, hstart_s, hmust⟩ := validate_path_ok hvs
        obtain ⟨hd_eq, hstart_d, -⟩ := validate_path_ok hvd
        subst hs_eq
        subst hd_eq
        intro h
        dsimp only at h
        revert h
        cases hdsrc : fs.isDir (resolveCandidate c.workspace_dir src)
        · intro h
          rw [if_neg (by simp)] at h
          revert h
          cases hr1 : relativeToStr c.workspace_dir
              (resolveCandidate c.workspace_dir src) with
          | error e =>
            intro h
            exact absurd h (by simp)
          | ok relSrc =>
            intro h
            dsimp only at h
            revert h
            cases hr2 : relativeToStr c.workspace_dir
                (resolveCandidate c.workspace_dir dst) with
            | error e =>
              intro h
              exact absurd h (by simp)
            | ok relDest =>
              intro h
              dsimp only at h
              have hsf : fs.isFile (resolveCandidate c.workspace_dir src) = true := by
                have hex := hmust rfl
                unfold FS.pathExists at hex
                rw [hdsrc] at hex
                simpa using hex
              by_cases hcf : (confirm && !c.auto_confirm) = true
              · rw [if_pos hcf] at h
                by_cases hg : request_confirmation gate c "Copy File"
                    ("Copying file: " ++ relSrc ++ " -> " ++ relDest) = true
                · rw [if_pos hg] at h
                  exact copyOsPhase_semantics hne hdir hroot hsf h
                · rw [if_neg hg] at h
                  exact absurd h (by simp)
              · rw [if_neg hcf] at h
                exact copyOsPhase_semantics hne hdir hroot hsf h
        · intro h
          rw [if_pos rfl] at h
          exact absurd h (by simp)

/-- Witness for C8's amended theorem: moving/copying `f` to `g` in `/ws`. -/
theorem move_copy_content_semantics_witness :
    (move_file shippedGate clientWsAuto fsWsF "f" "g" true
        = (.ok true,
           (move_file shippedGate clientWsAuto fsWsF "f" "g" true).2.1,
           (move_file shippedGate clientWsAuto fsWsF "f" "g" true).2.2) →
      (move_file shippedGate clientWsAuto fsWsF "f" "g" true).2.2.pathExists
          (resolveCandidate clientWsAuto.workspace_dir "f") = false ∧
      (move_file shippedGate clientWsAuto fsWsF "f" "g" true).2.2.readFile
          (resolveCandidate clientWsAuto.workspace_dir "g")
        = fsWsF.readFile (resolveCandidate clientWsAuto.workspace_dir "f")) ∧
    (copy_file shippedGate clientWsAuto fsWsF "f" "g" true
        = (.ok true,
           (copy_file shippedGate clientWsAuto fsWsF "f" "g" true).2.1,
           (copy_file shippedGate clientWsAuto fsWsF "f" "g" true).2.2) →
      (copy_file shippedGate clientWsAuto fsWsF "f" "g" true).2.2.readFile
          (resolveCandidate clientWsAuto.workspace_dir "f")
        = fsWsF.readFile (resolveCandidate clientWsAuto.workspace_dir "f") ∧
      (copy_file shippedGate clientWsAuto fsWsF "f" "g" true).2.2.isFile
          (resolveCandidate clientWsAuto.workspace_dir "f") = true ∧
      (copy_file shippedGate clientWsAuto fsWsF "f" "g" true).2.2.readFile
          (resolveCandidate clientWsAuto.workspace_dir "g")
        = fsWsF.readFile (resolveCandidate clientWsAuto.workspace_dir "f")) :=
  move_copy_content_semantics shippedGate clientWsAuto
    (move_file shippedGate clientWsAuto fsWsF "f" "g" true).2.1
    (copy_file shippedGate clientWsAuto fsWsF "f" "g" true).2.1
    fsWsF
    (move_file shippedGate clientWsAuto fsWsF "f" "g" true).2.2
    (copy_file shippedGate clientWsAuto fsWsF "f" "g" true).2.2
    "f" "g" true (by decide) (by decide) (by decide)

lemma exceptionExitCode_pos (e : PyExc) : 1 ≤ exceptionExitCode e := by
  cases e <;> decide

lemma exceptionExitCode_le5 (e : PyExc) : exceptionExitCode e ≤ 5 := by
  cases e <;> decide

lemma mapExit_spec {α : Type} (x : Except PyExc α × Client × FS) :
    ((mapExit x).1 = 0 ↔ isOkResult x.1 = true) ∧
    (∀ e, x.1 = .error e → (mapExit x).1 = exceptionExitCode e) ∧
    (mapExit x).1 ≤ 5 := by
  obtain ⟨r, c1, fs1⟩ := x
  cases r with
  | ok v =>
    refine ⟨by simp [mapExit, isOkResult], ?_, by simp [mapExit]⟩
    intro e hE
    exact absurd hE (by simp)
  | error e =>
    refine ⟨?_, ?_, ?_⟩
    · simp only [mapExit, isOkResult]
      constructor
      · intro h0
        have := exceptionExitCode_pos e
        omega
      · intro hF
        exact Bool.noConfusion hF
    · intro e1 hE
      dsimp only at hE
      rcases Except.error.inj hE with rfl
      rfl
    · exact exceptionExitCode_le5 e

lemma validate_path_false_error {c : Client} {fs : FS} {p : String} {e : PyExc}
    (h : validate_path c fs p false = .error e) : e = .pathValidation := by
  unfold validate_path at h
  split_ifs at h <;>
    first
      | exact (Except.error.inj h).symm
      | simp_all

lemma file_exists_never_raises (c : Client) (fs : FS) (p : String) :
    ∃ b, file_exists c fs p = .ok b := by
  unfold file_exists
  cases hv : validate_path c fs p false with
  | ok t => exact ⟨_, rfl⟩
  | error e =>
    rcases validate_path_false_error hv with rfl
    exact ⟨false, rfl⟩

lemma directory_exists_never_raises (c : Client) (fs : FS) (p : String) :
    ∃ b, directory_exists c fs p = .ok b := by
  unfold directory_exists
  cases hv : validate_path c fs p false with
  | ok t => exact ⟨_, rfl⟩
  | error e =>
    rcases validate_path_false_error hv with rfl
    exact ⟨false, rfl⟩

lemma get_file_info_never_raises (c : Client) (fs : FS) (p : String) :
    ∃ o, get_file_info c fs p = .ok o := by
  unfold get_file_info
  cases hv : validate_path c fs p true with
  | ok t => exact ⟨_, rfl⟩
  | error e =>
    rcases validate_path_error_cases hv with rfl | rfl <;> exact ⟨none, rfl⟩

/-- C9: the CLI front end maps every command outcome to the fixed exit-code
scheme: 0 on success; 1 for not-found/generic outcomes (`FileNotFoundError`,
an absent `exists`/`info` target, a missing command); 2 for security errors;
3 when the operation is cancelled by the user; 4 for other TinyFS errors;
and 5 for unexpected errors (everything outside the TinyFS hierarchy). -/
theorem cli_exit_code_scheme :
    (∀ e : PyExc,
      (exceptionExitCode e = 1 ↔ e = .fileNotFound) ∧
      (exceptionExitCode e = 2 ↔ e.isSecurityError = true) ∧
      (exceptionExitCode e = 3 ↔ e = .operationCancelled) ∧
      (exceptionExitCode e = 4 ↔
        (e.isTinyFSError = true ∧ e.isSecurityError = false ∧
          ¬ e = .operationCancelled)) ∧
      (exceptionExitCode e = 5 ↔
        (e.isTinyFSError = false ∧ ¬ e = .fileNotFound))) ∧
    (∀ gate c fs cmd, (execute_command gate c fs cmd).1 ≤ 5) ∧
    (∀ gate c fs p,
      ((execute_command gate c fs (.readCmd p)).1 = 0 ↔
        isOkResult (read_file c fs p).1 = true) ∧
      (∀ e, (read_file c fs p).1 = .error e →
        (execute_command gate c fs (.readCmd p)).1 = exceptionExitCode e)) ∧
    (∀ gate c fs p content,
      ((execute_command gate c fs (.writeCmd p content)).1 = 0 ↔
        isOkResult (write_file gate c fs p content true).1 = true) ∧
      (∀ e, (write_file gate c fs p content true).1 = .error e →
        (execute_command gate c fs (.writeCmd p content)).1
          = exceptionExitCode e)) ∧
    (∀ gate c fs p,
      ((execute_command gate c fs (.listCmd p)).1 = 0 ↔
        isOkResult (list_directory c fs p).1 = true) ∧
      (∀ e, (list_directory c fs p).1 = .error e →
        (execute_command gate c fs (.listCmd p)).1 = exceptionExitCode e)) ∧
    (∀ gate c fs p,
      ((execute_command gate c fs (.mkdirCmd p)).1 = 0 ↔
        isOkResult (create_directory gate c fs p true).1 = true) ∧
      (∀ e, (create_directory gate c fs p true).1 = .error e →
        (execute_command gate c fs (.mkdirCmd p)).1 = exceptionExitCode e)) ∧
    (∀ gate c fs p,
      ((execute_command gate c fs (.deleteCmd p)).1 = 0 ↔
        isOkResult (delete_file gate c fs p true).1 = true) ∧
      (∀ e, (delete_file gate c fs p true).1 = .error e →
        (execute_command gate c fs (.deleteCmd p)).1 = exceptionExitCode e)) ∧
    (∀ gate c fs s d,
      ((execute_command gate c fs (.moveCmd s d)).1 = 0 ↔
        isOkResult (move_file gate c fs s d true).1 = true) ∧
      (∀ e, (move_file gate c fs s d true).1 = .error e →
        (execute_command gate c fs (.moveCmd s d)).1 = exceptionExitCode e)) ∧
    (∀ gate c fs s d,
      ((execute_command gate c fs (.copyCmd s d)).1 = 0 ↔
        isOkResult (copy_file gate c fs s d true).1 = true) ∧
      (∀ e, (copy_file gate c fs s d true).1 = .error e →
        (execute_command gate c fs (.copyCmd s d)).1 = exceptionExitCode e)) ∧
    (∀ gate c fs p,
      (execute_command gate c fs (.existsFileCmd p)).1 ≤ 1 ∧
      (execute_command gate c fs (.existsDirCmd p)).1 ≤ 1 ∧
      (execute_command gate c fs (.existsAnyCmd p)).1 ≤ 1 ∧
      (execute_command gate c fs (.infoCmd p)).1 ≤ 1) ∧
    (∀ gate c fs, (execute_command gate c fs .noCommand).1 = 1) := by
  refine ⟨?_, ?_, ?_, ?_, ?_, ?_, ?_, ?_, ?_, ?_, ?_⟩
  · intro e
    cases e <;> exact (by decide)
  · intro gate c fs cmd
    cases cmd with
    | readCmd p => exact (mapExit_spec _).2.2
    | writeCmd p content => exact (mapExit_spec _).2.2
    | listCmd p => exact (mapExit_spec _).2.2
    | mkdirCmd p => exact (mapExit_spec _).2.2
    | deleteCmd p => exact (mapExit_spec _).2.2
    | moveCmd s d => exact (mapExit_spec _).2.2
    | copyCmd s d => exact (mapExit_spec _).2.2
    | existsFileCmd p =>
      obtain ⟨b, hb⟩ := file_exists_never_raises c fs p
      unfold execute_command
      dsimp only
      rw [hb]
      cases b <;> simp
    | existsDirCmd p =>
      obtain ⟨b, hb⟩ := directory_exists_never_raises c fs p
      unfold execute_command
      dsimp only
      rw [hb]
      cases b <;> simp
    | existsAnyCmd p =>
      obtain ⟨b, hb⟩ := file_exists_never_raises c fs p
      unfold execute_command
      dsimp only
      rw [hb]
      cases b with
      | true => simp
      | false =>
        obtain ⟨b2, hb2⟩ := directory_exists_never_raises c fs p
        dsimp only
        rw [hb2]
        cases b2 <;> simp
    | infoCmd p =>
      obtain ⟨o, ho⟩ := get_file_info_never_raises c fs p
      unfold execute_command
      dsimp only
      rw [ho]
      cases o <;> simp
    | noCommand => simp [execute_command]
  · intro gate c fs p
    exact ⟨(mapExit_spec (read_file c fs p)).1, (mapExit_spec _).2.1⟩
  · intro gate c fs p content
    exact ⟨(mapExit_spec (write_file gate c fs p content true)).1,
      (mapExit_spec _).2.1⟩
  · intro gate c fs p
    exact ⟨(mapExit_spec (list_directory c fs p)).1, (mapExit_spec _).2.1⟩
  · intro gate c fs p
    exact ⟨(mapExit_spec (create_directory gate c fs p true)).1,
      (mapExit_spec _).2.1⟩
  · intro gate c fs p
    exact ⟨(mapExit_spec (delete_file gate c fs p true)).1,
      (mapExit_spec _).2.1⟩
  · intro gate c fs s d
    exact ⟨(mapExit_spec (move_file gate c fs s d true)).1,
      (mapExit_spec _).2.1⟩
  · intro gate c fs s d
    exact ⟨(mapExit_spec (copy_file gate c fs s d true)).1,
      (mapExit_spec _).2.1⟩
  · intro gate c fs p
    refine ⟨?_, ?_, ?_, ?_⟩
    · obtain ⟨b, hb⟩ := file_exists_never_raises c fs p
      unfold execute_command
      dsimp only
      rw [hb]
      cases b <;> simp
    · obtain ⟨b, hb⟩ := directory_exists_never_raises c fs p
      unfold execute_command
      dsimp only
      rw [hb]
      cases b <;> simp
    · obtain ⟨b, hb⟩ := file_exists_never_raises c fs p
      unfold execute_command
      dsimp only
      rw [hb]
      cases b with
      | true => simp
      | false =>
        obtain ⟨b2, hb2⟩ := directory_exists_never_raises c fs p
        dsimp only
        rw [hb2]
        cases b2 <;> simp
    · obtain ⟨o, ho⟩ := get_file_info_never_raises c fs p
      unfold execute_command
      dsimp only
      rw [ho]
      cases o <;> simp
  · intro gate c fs
    simp [execute_command]

/-- Witness for C9 at a concrete error outcome: reading `/etc/passwd`
against workspace `/a/ws` raises `PathValidationError`, and the CLI front
end exits with code 2. -/
theorem cli_exit_code_scheme_witness :
    (execute_command shippedGate clientA fsA (.readCmd "/etc/passwd")).1
      = exceptionExitCode .pathValidation :=
  (cli_exit_code_scheme.2.2.1 shippedGate clientA fsA "/etc/passwd").2
    .pathValidation (by decide)

lemma le_foldr_max {x : Nat} : ∀ {l : List Nat}, x ∈ l → x ≤ l.foldr Nat.max 0 := by
  intro l
  induction l with
  | nil =>
    intro hx
    simp at hx
  | cons a t ih =>
    intro hx
    rcases List.mem_cons.mp hx with rfl | hx
    · simpa using Nat.le_max_left x (t.foldr Nat.max 0)
    · exact le_trans (ih hx) (by simpa using Nat.le_max_right a (t.foldr Nat.max 0))

lemma freshRef_ne_of_lookup_isSome {h : ListHeap} {r : Nat}
    (hr : (h.lookup r).isSome = true) : ¬ h.freshRef = r := by
  unfold ListHeap.lookup at hr
  cases hfind : h.cells.find? (fun cell => cell.1 = r) with
  | none =>
    rw [hfind] at hr
    exact Bool.noConfusion hr
  | some cell =>
    have hmem := List.mem_of_find?_eq_some hfind
    have hp : cell.1 = r := by simpa using List.find?_some hfind
    have hmap : cell.1 ∈ h.cells.map (fun cell => cell.1) :=
      List.mem_map.mpr ⟨cell, hmem, rfl⟩
    have hle := le_foldr_max hmap
    unfold ListHeap.freshRef
    intro hE
    omega

lemma setRef_lookup_ne {h : ListHeap} {r2 r : Nat} (hne : ¬ r2 = r)
    (v : List ActionRecord) :
    (h.setRef r2 v).lookup r = h.lookup r := by
  rcases h with ⟨cells⟩
  unfold ListHeap.setRef ListHeap.lookup
  induction cells with
  | nil => rfl
  | cons a t ih =>
    rw [List.map_cons]
    dsimp only
    by_cases ha2 : a.1 = r2
    · rw [if_pos ha2,
        List.find?_cons_of_neg _ (by simp; exact fun hE => hne hE),
        List.find?_cons_of_neg _ (by simp; exact fun hE => hne (ha2.symm.trans hE))]
      exact ih
    · rw [if_neg ha2]
      by_cases har : a.1 = r
      · rw [List.find?_cons_of_pos _ (by simp [har]),
          List.find?_cons_of_pos _ (by simp [har])]
      · rw [List.find?_cons_of_neg _ (by simp [har]),
          List.find?_cons_of_neg _ (by simp [har])]
        exact ih

/-- C10: `get_history` returns a defensive copy: `list.copy()` allocates a
fresh list object, so the returned reference is distinct from the client's
internal `action_history` object, holds the same records, and mutating the
returned list in place (appending, removing, reordering — any replacement of
its contents) leaves the client's internal history unchanged, so subsequent
recording and eviction are unaffected. -/
theorem get_history_defensive_copy (h : ListHeap) (r : Nat)
    (hr : (h.lookup r).isSome = true) :
    ¬ (get_history_alias r h).1 = r ∧
    ((get_history_alias r h).2).lookup (get_history_alias r h).1 = h.lookup r ∧
    ((get_history_alias r h).2).lookup r = h.lookup r ∧
    (∀ v, (((get_history_alias r h).2).setRef (get_history_alias r h).1 v).lookup r
      = h.lookup r) := by
  have hfr : ¬ h.freshRef = r := freshRef_ne_of_lookup_isSome hr
  have hcontents : some ((h.lookup r).getD []) = h.lookup r := by
    cases hx : h.lookup r
    · rw [hx] at hr
      exact Bool.noConfusion hr
    · rfl
  have h3 : ((get_history_alias r h).2).lookup r = h.lookup r := by
    show (ListHeap.mk ((h.freshRef, (h.lookup r).getD []) :: h.cells)).lookup r
      = h.lookup r
    unfold ListHeap.lookup
    rw [List.find?_cons_of_neg _ (by simp; exact fun hE => hfr hE)]
  refine ⟨hfr, ?_, h3, ?_⟩
  · show (ListHeap.mk ((h.freshRef, (h.lookup r).getD []) :: h.cells)).lookup
        h.freshRef = h.lookup r
    unfold ListHeap.lookup
    rw [List.find?_cons_of_pos _ (by simp)]
    exact hcontents
  · intro v
    show (((get_history_alias r h).2).setRef h.freshRef v).lookup r = h.lookup r
    rw [setRef_lookup_ne hfr v]
    exact h3

/-- A one-cell heap: the client's `action_history` list lives at object 1. -/
def heapW : ListHeap := { cells := [(1, [ActionRecord.create .read "x"])] }

/-- Witness for C10: the copy returned for the history at object 1 is a new
object, and clearing it leaves the history unchanged. -/
theorem get_history_defensive_copy_witness :
    ¬ (get_history_alias 1 heapW).1 = 1 ∧
    (((get_history_alias 1 heapW).2).setRef (get_history_alias 1 heapW).1 []).lookup 1
      = heapW.lookup 1 :=
  ⟨(get_history_defensive_copy heapW 1 (by decide)).1,
   (get_history_defensive_copy heapW 1 (by decide)).2.2.2 []⟩

/-- Witness for C2's amended theorem at a concrete denied write: the client
rooted at `/ws` with auto-confirm off, writing `a/b.txt`. -/
theorem denied_mutations_raise_witness :
    ((write_file denyGate clientWs fsWs "a/b.txt" "hi" true).1
        = .error .operationCancelled ∨
      ∃ e, (write_file denyGate clientWs fsWs "a/b.txt" "hi" true).1 = .error e ∧
        isPreflightErr e = true) ∧
    (write_file denyGate clientWs fsWs "a/b.txt" "hi" true).2.2.files = fsWs.files :=
  (denied_mutations_raise_and_leave_files_unchanged clientWs fsWs
    "a/b.txt" "q" "hi" (by decide)).1

end TinyFS
